import Mathlib

/-!
# The HTTP operation jockey (src/http_op_jockey.c)

A shallow embedding of the response-driving state machine of asynchttp.
The jockey object, the operation it owns, the byte streams of the process,
`errno` and a log of every call made on a collaborator form one `World`;
each C function is a function on worlds.  The collaborators (operation,
byte streams, bounded accumulator, scheduler) are driven by scripts held in
the world, so that every return value they can produce is covered.
-/

namespace HttpOpJockey

/-! ## Data model -/

/-- One octet of a response body. -/
abbrev byte := Fin 256

/-- Identity of a response envelope object (a `const http_env_t *` that is not NULL). -/
abbrev http_env_t := Nat

/-- Identity of a decoded JSON value (a `json_thing_t *` that is not NULL). -/
abbrev json_thing_t := Nat

/-- An `action_1` value (object and function pointer), identified by a number. -/
abbrev action_1 := Nat

/-- The all-zero action, `NULL_ACTION_1`. -/
def NULL_ACTION_1 : action_1 := 0

/-- Value of `EAGAIN` in `<errno.h>` (Linux). -/
def EAGAIN : Int := 11

/-- Value of `EINVAL` in `<errno.h>` (Linux). -/
def EINVAL : Int := 22

/-- Value of `ENOSPC` in `<errno.h>` (Linux). -/
def ENOSPC : Int := 28

/-- Value of `EMSGSIZE` in `<errno.h>` (Linux). -/
def EMSGSIZE : Int := 90

/-- The enum `http_op_jockey_state_t` (lines 38-44). -/
inductive http_op_jockey_state_t
  | HTTP_OP_JOCKEY_READING_HEADERS
  | HTTP_OP_JOCKEY_READING_BODY
  | HTTP_OP_JOCKEY_DONE
  | HTTP_OP_JOCKEY_FAILED
  | HTTP_OP_JOCKEY_ZOMBIE
  deriving DecidableEq, Repr

export http_op_jockey_state_t (HTTP_OP_JOCKEY_READING_HEADERS HTTP_OP_JOCKEY_READING_BODY
  HTTP_OP_JOCKEY_DONE HTTP_OP_JOCKEY_FAILED HTTP_OP_JOCKEY_ZOMBIE)

/-- A `bytestream_1` handle: the global `drystream` or a stream of the process. -/
inductive bytestream_1
  | drystream
  | stream (id : Nat)
  deriving DecidableEq, Repr

export bytestream_1 (drystream)

/-- The bounded accumulator `byte_array_t`: a capacity and the bytes held. -/
structure byte_array_t where
  max_size : Nat
  data : List byte
  deriving DecidableEq, Repr

/-- The struct `http_op_response` (lines 8-11); `none` is a NULL pointer. -/
structure http_op_response where
  envelope : Option http_env_t
  body : Option byte_array_t
  deriving DecidableEq, Repr

/-- The struct `http_op_jockey` (lines 46-55). -/
structure http_op_jockey where
  async : Nat
  op : Nat
  uid : Nat
  state : http_op_jockey_state_t
  error : Int
  content : bytestream_1
  response : http_op_response
  callback : action_1
  deriving DecidableEq, Repr

/-- What the next `bytestream_1_read` on a stream finds: bytes that are ready,
or a failure with an `errno` value.  A stream with nothing pending is at its end. -/
inductive read_outcome
  | bytes (bs : List byte)
  | fail (e : Int)
  deriving DecidableEq, Repr

/-- State of one byte stream: what successive reads will find, the callback
slot, and how often it was closed. -/
structure stream_t where
  pending : List read_outcome
  callback : action_1
  closed : Nat
  deriving DecidableEq, Repr

/-- One answer of `http_op_receive_response`: the pointer returned and the
`errno` value the call leaves behind. -/
structure recv_outcome where
  ret : Option http_env_t
  err : Int
  deriving DecidableEq, Repr

/-- The answer of `http_op_get_response_content`: a stream handle stored through
the out-pointer, or a failure with an `errno` value. -/
inductive content_outcome
  | ok (s : bytestream_1)
  | fail (e : Int)
  deriving DecidableEq, Repr

/-- State of the HTTP operation `http_op_t`: its future answers, its callback
slot, and how often it was closed. -/
structure http_op_t where
  responses : List recv_outcome
  content : content_outcome
  callback : action_1
  closed : Nat
  deriving DecidableEq, Repr

/-- A call made on a collaborator, or a trace point passed, in program order. -/
inductive Event
  | FSTRACE_CREATE (uid : Nat) (op : Nat)
  | FSTRACE_DESTROY (uid : Nat)
  | FSTRACE_SET_STATE (uid : Nat) (old new : http_op_jockey_state_t)
  | FSTRACE_READ_CONTENT_FAIL (uid : Nat)
  | FSTRACE_RECEIVE_RESP_FAIL (uid : Nat)
  | FSTRACE_RECEIVE_RESP_EOF (uid : Nat)
  | FSTRACE_GOT_RESPONSE (uid : Nat) (code_of explanation_of : Option http_env_t)
  | FSTRACE_GET_RESP_CONTENT_FAIL (uid : Nat)
  | make_byte_array (max_size : Nat)
  | destroy_byte_array (array : byte_array_t)
  | byte_array_append_stream (len : Nat)
  | json_utf8_decode (data : List byte) (size : Nat)
  | bytestream_1_read (s : bytestream_1) (count : Nat) (ret : Int)
  | bytestream_1_close (s : bytestream_1)
  | bytestream_1_register_callback (s : bytestream_1) (action : action_1)
  | bytestream_1_unregister_callback (s : bytestream_1)
  | http_op_receive_response (op : Nat) (ret : Option http_env_t)
  | http_op_get_response_content (op : Nat) (ret : Int)
  | http_op_register_callback (op : Nat) (action : action_1)
  | http_op_unregister_callback (op : Nat)
  | http_op_close (op : Nat)
  | async_execute (async : Nat) (action : action_1)
  | async_wound (async : Nat) (uid : Nat)
  deriving DecidableEq, Repr

/-- Everything outside the jockey object: `errno`, the operation, the streams,
the unique-id counter of fstrace, and the log of calls. -/
structure Sys where
  errno : Int
  op : http_op_t
  streams : Nat → stream_t
  next_uid : Nat
  log : List Event

/-- The system together with the one jockey object under study. -/
structure World extends Sys where
  jockey : http_op_jockey

/-- Append an event to the log. -/
def emit (e : Event) (w : World) : World :=
  { w with log := w.log ++ [e] }

/-- Replace the state of stream `i`. -/
def put_stream (i : Nat) (s : stream_t) (w : World) : World :=
  { w with streams := fun j => if j = i then s else w.streams j }

/-! ## Collaborators -/

/-- Result of a read: the count returned, the bytes stored in the buffer, the world after. -/
structure read_result where
  count : Int
  data : List byte
  world : World

/-- What stays pending when a read took `count` of the ready bytes `bs`. -/
def leftover (count : Nat) (bs : List byte) (rest : List read_outcome) : List read_outcome :=
  if bs.drop count = [] then rest else .bytes (bs.drop count) :: rest

/-- Modelled from the spec: `bytestream_1_read` of the async library, the
non-blocking read(buffer, max) that yields a positive count, 0 at the end of
the stream, or a negative result with `errno` set.  `drystream` always asks to
try again.  A read of `count` bytes takes at most `count` of the bytes that
are ready and leaves the rest for the next read. -/
def bytestream_1_read (s : bytestream_1) (count : Nat) (w : World) : read_result :=
  match s with
  | .drystream =>
    { count := -1, data := [],
      world := emit (.bytestream_1_read s count (-1)) { w with errno := EAGAIN } }
  | .stream i =>
    match (w.streams i).pending with
    | [] => { count := 0, data := [], world := emit (.bytestream_1_read s count 0) w }
    | .fail e :: rest =>
      { count := -1, data := [],
        world := emit (.bytestream_1_read s count (-1))
          (put_stream i { w.streams i with pending := rest } { w with errno := e }) }
    | .bytes bs :: rest =>
      { count := (bs.take count).length, data := bs.take count,
        world := emit (.bytestream_1_read s count (bs.take count).length)
          (put_stream i { w.streams i with pending := leftover count bs rest } w) }

/-- Modelled from the spec: `bytestream_1_close` of the async library. -/
def bytestream_1_close (s : bytestream_1) (w : World) : World :=
  match s with
  | .drystream => emit (.bytestream_1_close s) w
  | .stream i =>
    emit (.bytestream_1_close s)
      (put_stream i { w.streams i with closed := (w.streams i).closed + 1 } w)

/-- Modelled from the spec: `bytestream_1_register_callback` of the async
library, a single callback slot per stream; `drystream` has no slot. -/
def bytestream_1_register_callback (s : bytestream_1) (action : action_1) (w : World) : World :=
  match s with
  | .drystream => emit (.bytestream_1_register_callback s action) w
  | .stream i =>
    emit (.bytestream_1_register_callback s action)
      (put_stream i { w.streams i with callback := action } w)

/-- Modelled from the spec: `bytestream_1_unregister_callback` of the async library. -/
def bytestream_1_unregister_callback (s : bytestream_1) (w : World) : World :=
  match s with
  | .drystream => emit (.bytestream_1_unregister_callback s) w
  | .stream i =>
    emit (.bytestream_1_unregister_callback s)
      (put_stream i { w.streams i with callback := NULL_ACTION_1 } w)

/-- The static function `read_frame` (lines 132-136): reads from the stream the
object pointer designates, here the jockey's content stream. -/
def read_frame (obj : bytestream_1) (count : Nat) (w : World) : read_result :=
  bytestream_1_read obj count w

/-- Modelled from the spec: `make_byte_array` of fsdyn, an empty accumulator of
the given capacity. -/
def make_byte_array (max_size : Nat) : byte_array_t :=
  { max_size := max_size, data := [] }

/-- Result of an append: the count returned, the accumulator after, the world after. -/
structure append_result where
  count : Int
  array : byte_array_t
  world : World

/-- Modelled from the spec: `byte_array_append_stream` of fsdyn.  A full
accumulator fails with `ENOSPC` without reading; otherwise one read of at most
min(len, remaining capacity) bytes is made through `read_frame`, the bytes
read are appended, and the read's result is returned. -/
def byte_array_append_stream (array : byte_array_t) (obj : bytestream_1) (len : Nat)
    (w : World) : append_result :=
  let w1 := emit (.byte_array_append_stream len) w
  if array.max_size ≤ array.data.length then
    { count := -1, array := array, world := { w1 with errno := ENOSPC } }
  else
    let r := read_frame obj (min len (array.max_size - array.data.length)) w1
    { count := r.count,
      array := if 0 < r.count then { array with data := array.data ++ r.data } else array,
      world := r.world }

/-- Modelled from the spec: `http_op_receive_response` of client.c, the
non-blocking poll for the response headers.  It returns the next scripted
answer; an operation with no answer left returns NULL with `errno` 0. -/
def http_op_receive_response (w : World) : Option http_env_t × World :=
  match w.op.responses with
  | [] => (none, emit (.http_op_receive_response w.jockey.op none) { w with errno := 0 })
  | o :: rest =>
    (o.ret, emit (.http_op_receive_response w.jockey.op o.ret)
      { w with errno := o.err, op := { w.op with responses := rest } })

/-- Modelled from the spec: `http_op_get_response_content` of client.c, called
with `&jockey->content` as the out-pointer.  On success the stream handle is
stored and 0 returned; on failure the return value is negative, `errno` is
set and the out-pointer is not written. -/
def http_op_get_response_content (w : World) : Int × World :=
  match w.op.content with
  | .ok s =>
    (0, emit (.http_op_get_response_content w.jockey.op 0)
      { w with jockey := { w.jockey with content := s } })
  | .fail e =>
    (-1, emit (.http_op_get_response_content w.jockey.op (-1)) { w with errno := e })

/-- Modelled from the spec: `http_op_register_callback` of client.c, the
operation's single callback slot. -/
def http_op_register_callback (action : action_1) (w : World) : World :=
  emit (.http_op_register_callback w.jockey.op action)
    { w with op := { w.op with callback := action } }

/-- Modelled from the spec: `http_op_unregister_callback` of client.c. -/
def http_op_unregister_callback (w : World) : World :=
  emit (.http_op_unregister_callback w.jockey.op)
    { w with op := { w.op with callback := NULL_ACTION_1 } }

/-- Modelled from the spec: `http_op_close` of client.c. -/
def http_op_close (w : World) : World :=
  emit (.http_op_close w.jockey.op) { w with op := { w.op with closed := w.op.closed + 1 } }

/-- Modelled from the spec: `async_execute` of the async library, which
schedules one invocation of the action. -/
def async_execute (action : action_1) (w : World) : World :=
  emit (.async_execute w.jockey.async action) w

/-- Modelled from the spec: `async_wound` of the async library, which queues
the deferred destruction of the object. -/
def async_wound (w : World) : World :=
  emit (.async_wound w.jockey.async w.jockey.uid) w

/-! ## The response value (lines 13-36) -/

/-- The function `http_op_response_get_envelope` (lines 13-16). -/
def http_op_response_get_envelope (response : http_op_response) : Option http_env_t :=
  response.envelope

/-- The function `http_op_response_release_body` (lines 18-23): the pointer
returned and the response after. -/
def http_op_response_release_body (response : http_op_response) :
    Option byte_array_t × http_op_response :=
  (response.body, { response with body := none })

/-- The function `http_op_response_release_body_as_json` (lines 25-36): the
pointer returned, the response after, and the calls made.  The decoder
`json_utf8_decode` of the encjson library is a parameter. -/
def http_op_response_release_body_as_json (json_utf8_decode : List byte → Option json_thing_t)
    (response : http_op_response) : Option json_thing_t × http_op_response × List Event :=
  match response.body with
  | some body =>
    (json_utf8_decode body.data, { response with body := none },
      [.json_utf8_decode body.data body.data.length, .destroy_byte_array body])
  | none => (none, response, [])

/-! ## The jockey (lines 59-236) -/

/-- The function `make_http_op_jockey` (lines 59-72); `fscalloc` zeroes the
fields that are not assigned. -/
def make_http_op_jockey (async : Nat) (op : Nat) (max_body_size : Nat) (s : Sys) : World :=
  { s with
    next_uid := s.next_uid + 1
    log := s.log ++ [.make_byte_array max_body_size, .FSTRACE_CREATE s.next_uid op]
    jockey :=
      { async := async
        uid := s.next_uid
        state := HTTP_OP_JOCKEY_READING_HEADERS
        op := op
        content := drystream
        response := { envelope := none, body := some (make_byte_array max_body_size) }
        error := 0
        callback := NULL_ACTION_1 } }

/-- The function `http_op_jockey_close` (lines 76-85). -/
def http_op_jockey_close (w : World) : World :=
  let w1 := emit (.FSTRACE_DESTROY w.jockey.uid) w
  let w2 :=
    match w1.jockey.response.body with
    | some body => emit (.destroy_byte_array body) w1
    | none => w1
  let w3 := bytestream_1_close w2.jockey.content w2
  let w4 := http_op_close w3
  let w5 := { w4 with jockey := { w4.jockey with state := HTTP_OP_JOCKEY_ZOMBIE } }
  async_wound w5

/-- The function `http_op_jockey_register_callback` (lines 87-92). -/
def http_op_jockey_register_callback (action : action_1) (w : World) : World :=
  let w1 := { w with jockey := { w.jockey with callback := action } }
  let w2 := http_op_register_callback action w1
  bytestream_1_register_callback w2.jockey.content action w2

/-- The function `http_op_jockey_unregister_callback` (lines 94-99). -/
def http_op_jockey_unregister_callback (w : World) : World :=
  let w1 := { w with jockey := { w.jockey with callback := NULL_ACTION_1 } }
  let w2 := http_op_unregister_callback w1
  bytestream_1_unregister_callback w2.jockey.content w2

/-- The static function `set_state` (lines 121-130). -/
def set_state (state : http_op_jockey_state_t) (w : World) : World :=
  let w1 := emit (.FSTRACE_SET_STATE w.jockey.uid w.jockey.state state) w
  { w1 with jockey := { w1.jockey with state := state } }

/-- Store a value in `jockey->error`. -/
def set_error (e : Int) (w : World) : World :=
  { w with jockey := { w.jockey with error := e } }

/-- Lines 155-168 of `probe_body`: what is done with the final value of `count`. -/
def probe_body_outcome (count : Int) (w : World) : World :=
  if count < 0 then
    if w.errno ≠ EAGAIN then
      let w1 := emit (.FSTRACE_READ_CONTENT_FAIL w.jockey.uid) w
      set_state HTTP_OP_JOCKEY_FAILED (set_error w1.errno w1)
    else w
  else if count = 0 then
    set_state HTTP_OP_JOCKEY_DONE w
  else
    { async_execute w.jockey.callback w with errno := EAGAIN }

/-- Lines 146-168 of `probe_body`: what is done with the `count` the append
returned, including the 1-byte lookahead after a capacity-exceeded append. -/
def probe_body_lookahead (count : Int) (w : World) : World :=
  if count < 0 ∧ w.errno = ENOSPC then
    let r := bytestream_1_read w.jockey.content 1 w
    if 0 < r.count then
      set_state HTTP_OP_JOCKEY_FAILED (set_error EMSGSIZE r.world)
    else
      probe_body_outcome r.count r.world
  else
    probe_body_outcome count w

/-- The accumulator `jockey->response.body` points to, after an append. -/
def store_body (array : byte_array_t) (w : World) : World :=
  { w with jockey := { w.jockey with response := { w.jockey.response with body := some array } } }

/-- The static function `probe_body` (lines 140-169).  A NULL accumulator is
outside the domain of `byte_array_append_stream`: there is no result then. -/
def probe_body (w : World) : Option World :=
  match w.jockey.response.body with
  | none => none
  | some body =>
    let a := byte_array_append_stream body w.jockey.content 2048 w
    some (probe_body_lookahead a.count (store_body a.array a.world))

/-- The static function `probe_headers` (lines 177-208). -/
def probe_headers (w : World) : World :=
  let w0 := { w with errno := 0 }
  let r := http_op_receive_response w0
  let w1 := r.2
  match r.1 with
  | none =>
    if w1.errno ≠ 0 then
      if w1.errno = EAGAIN then w1
      else
        let w2 := emit (.FSTRACE_RECEIVE_RESP_FAIL w1.jockey.uid) w1
        set_state HTTP_OP_JOCKEY_FAILED (set_error w2.errno w2)
    else
      let w2 := emit (.FSTRACE_RECEIVE_RESP_EOF w1.jockey.uid) w1
      set_state HTTP_OP_JOCKEY_FAILED (set_error w2.errno w2)
  | some envelope =>
    let w2 := emit (.FSTRACE_GOT_RESPONSE w1.jockey.uid w1.jockey.response.envelope
      (some envelope)) w1
    let c := http_op_get_response_content w2
    if c.1 < 0 then
      let w3 := emit (.FSTRACE_GET_RESP_CONTENT_FAIL c.2.jockey.uid) c.2
      set_state HTTP_OP_JOCKEY_FAILED (set_error w3.errno w3)
    else
      let w3 : World :=
        { c.2 with
          jockey := { c.2.jockey with
            response := { c.2.jockey.response with envelope := some envelope } } }
      let w4 := set_state HTTP_OP_JOCKEY_READING_BODY w3
      let w5 := bytestream_1_register_callback w4.jockey.content w4.jockey.callback w4
      let w6 := async_execute w5.jockey.callback w5
      { w6 with errno := EAGAIN }

/-- The second switch of `http_op_jockey_receive_response` (lines 222-235): the
pointer returned (`&jockey->response`, given as the response it points to)
and the world after. -/
def receive_response_result (w : World) : Option http_op_response × World :=
  match w.jockey.state with
  | .HTTP_OP_JOCKEY_READING_HEADERS => (none, w)
  | .HTTP_OP_JOCKEY_READING_BODY => (none, w)
  | .HTTP_OP_JOCKEY_FAILED => (none, { w with errno := w.jockey.error })
  | .HTTP_OP_JOCKEY_DONE => (some w.jockey.response, w)
  | .HTTP_OP_JOCKEY_ZOMBIE => (none, { w with errno := EINVAL })

/-- The function `http_op_jockey_receive_response` (lines 210-236). -/
def http_op_jockey_receive_response (w : World) : Option (Option http_op_response × World) :=
  let probed : Option World :=
    match w.jockey.state with
    | .HTTP_OP_JOCKEY_READING_HEADERS => some (probe_headers w)
    | .HTTP_OP_JOCKEY_READING_BODY => probe_body w
    | _ => some w
  probed.map receive_response_result

/-- Poll `k` times in a row, discarding the results; `none` if a poll has no result. -/
def polls : Nat → World → Option World
  | 0, w => some w
  | k + 1, w => (http_op_jockey_receive_response w).bind fun p => polls k p.2

/-- All bytes a script delivers, in order. -/
def delivered : List read_outcome → List byte
  | [] => []
  | .bytes bs :: rest => bs ++ delivered rest
  | .fail _ :: rest => delivered rest

/-- A body script as the stream contract describes it: every read that returns
data returns at least one byte, and the only failure is try-again. -/
def well_behaved : List read_outcome → Prop
  | [] => True
  | .bytes bs :: rest => bs ≠ [] ∧ well_behaved rest
  | .fail e :: rest => e = EAGAIN ∧ well_behaved rest

/-- The events of a log that schedule a callback. -/
def scheduled (log : List Event) : List Event :=
  log.filter fun e => match e with
    | .async_execute _ _ => true
    | _ => false

/-- A jockey in the body phase: it reads stream `i` into an accumulator of
capacity `m` that holds `acc`, and the stream has `evs` pending. -/
structure body_phase (w : World) (i m : Nat) (acc : List byte) (evs : List read_outcome) :
    Prop where
  state : w.jockey.state = HTTP_OP_JOCKEY_READING_BODY
  content : w.jockey.content = .stream i
  body : w.jockey.response.body = some { max_size := m, data := acc }
  pending : (w.streams i).pending = evs

/-- The states from which a poll does nothing: Done, Failed and Zombie. -/
def terminal (s : http_op_jockey_state_t) : Prop :=
  s = HTTP_OP_JOCKEY_DONE ∨ s = HTTP_OP_JOCKEY_FAILED ∨ s = HTTP_OP_JOCKEY_ZOMBIE

/-- The events of a log that unregister a callback. -/
def unregistrations (log : List Event) : List Event :=
  log.filter fun e => match e with
    | .http_op_unregister_callback _ => true
    | .bytestream_1_unregister_callback _ => true
    | _ => false

/-- The envelope returned by the most recent `http_op_receive_response` call
of a log that returned one. -/
def last_envelope (log : List Event) : Option http_env_t :=
  log.foldl (fun acc e => match e with
    | .http_op_receive_response _ (some E) => some E
    | _ => acc) none

/-- One of the two extraction calls on a response. -/
inductive release_call
  | release_body
  | release_body_as_json
  deriving DecidableEq, Repr

/-- The pointer an extraction call returned. -/
inductive released
  | body (b : Option byte_array_t)
  | json (j : Option json_thing_t)
  deriving DecidableEq, Repr

/-- Whether an extraction call returned NULL. -/
def released.is_null : released → Bool
  | .body b => b.isNone
  | .json j => j.isNone

/-- Run one extraction call: the pointer returned, the response after, the calls made. -/
def release (json_utf8_decode : List byte → Option json_thing_t) (c : release_call)
    (response : http_op_response) : released × http_op_response × List Event :=
  match c with
  | .release_body =>
    (.body (http_op_response_release_body response).1,
      (http_op_response_release_body response).2, [])
  | .release_body_as_json =>
    (.json (http_op_response_release_body_as_json json_utf8_decode response).1,
      (http_op_response_release_body_as_json json_utf8_decode response).2.1,
      (http_op_response_release_body_as_json json_utf8_decode response).2.2)

/-- Run extraction calls one after the other. -/
def releases (json_utf8_decode : List byte → Option json_thing_t) :
    List release_call → http_op_response → List released × http_op_response × List Event
  | [], response => ([], response, [])
  | c :: cs, response =>
    let x := release json_utf8_decode c response
    let y := releases json_utf8_decode cs x.2.1
    (x.1 :: y.1, y.2.1, x.2.2 ++ y.2.2)

/-- A call of the consumer on the jockey's public interface.  The two
extraction calls act on `&jockey->response`, the pointer a poll returns. -/
inductive api_call
  | receive_response
  | close
  | register_callback (action : action_1)
  | unregister_callback
  | release_body
  | release_body_as_json (json_utf8_decode : List byte → Option json_thing_t)

/-- The world after one call of the consumer.  There is none if the call has
no result, or if the consumer extracts the body without holding the response
(the response pointer is handed out in Done only, and is dead after close). -/
def api_step (c : api_call) (w : World) : Option World :=
  match c with
  | .receive_response => (http_op_jockey_receive_response w).map fun p => p.2
  | .close => some (http_op_jockey_close w)
  | .register_callback action => some (http_op_jockey_register_callback action w)
  | .unregister_callback => some (http_op_jockey_unregister_callback w)
  | .release_body =>
    if w.jockey.state = HTTP_OP_JOCKEY_DONE then
      some { w with jockey := { w.jockey with
        response := (http_op_response_release_body w.jockey.response).2 } }
    else none
  | .release_body_as_json json_utf8_decode =>
    if w.jockey.state = HTTP_OP_JOCKEY_DONE then
      some { w with
        log := w.log ++
          (http_op_response_release_body_as_json json_utf8_decode w.jockey.response).2.2
        jockey := { w.jockey with
          response :=
            (http_op_response_release_body_as_json json_utf8_decode w.jockey.response).2.1 } }
    else none

/-- The world after a sequence of calls of the consumer. -/
def api_run : List api_call → World → Option World
  | [], w => some w
  | c :: cs, w => (api_step c w).bind (api_run cs)

/-- A world the consumer can bring about: a jockey made by
`make_http_op_jockey` in some system, then driven through the public interface. -/
def reachable (w : World) : Prop :=
  ∃ (async op max_body_size : Nat) (s : Sys) (cs : List api_call),
    api_run cs (make_http_op_jockey async op max_body_size s) = some w

/-- What holds of every reachable jockey: the accumulator is present while it
reads, and once the headers arrived the envelope held is the one the
operation returned last. -/
structure jockey_inv (w : World) : Prop where
  body_present : w.jockey.state = HTTP_OP_JOCKEY_READING_HEADERS ∨
      w.jockey.state = HTTP_OP_JOCKEY_READING_BODY → w.jockey.response.body ≠ none
  envelope_installed : w.jockey.state = HTTP_OP_JOCKEY_READING_BODY ∨
      w.jockey.state = HTTP_OP_JOCKEY_DONE →
    ∃ E, w.jockey.response.envelope = some E ∧ last_envelope w.log = some E

/-- A sample system: the operation answers try-again once, then delivers
envelope 7 and hands out stream 3; every stream has the script `evs` pending. -/
def sample_sys (evs : List read_outcome) : Sys :=
  { errno := 0
    op := { responses := [⟨none, EAGAIN⟩, ⟨some 7, 0⟩], content := .ok (.stream 3),
            callback := NULL_ACTION_1, closed := 0 }
    streams := fun _ => { pending := evs, callback := NULL_ACTION_1, closed := 0 }
    next_uid := 100
    log := [] }

/-- A sample jockey in the body phase: capacity `m`, nothing buffered yet,
reading stream 3 of `sample_sys evs`, callback 5 stored. -/
def sample_body_world (m : Nat) (evs : List read_outcome) : World :=
  { sample_sys evs with
    jockey :=
      { async := 1, op := 2, uid := 100, state := HTTP_OP_JOCKEY_READING_BODY, error := 0,
        content := .stream 3,
        response := { envelope := some 7, body := some (make_byte_array m) },
        callback := 5 } }

/-- A sample jockey fresh from `make_http_op_jockey` (capacity 10) whose
operation has the given answers in store. -/
def sample_headers_world (responses : List recv_outcome) (content : content_outcome) : World :=
  make_http_op_jockey 1 2 10
    { sample_sys [] with
      op := { responses := responses, content := content, callback := NULL_ACTION_1,
              closed := 0 } }

/-- The events of a log that are reads of a byte stream. -/
def reads (log : List Event) : List Event :=
  log.filter fun e => match e with
    | .bytestream_1_read _ _ _ => true
    | _ => false

/-- The events of a log that destroy an accumulator. -/
def destroys (log : List Event) : List Event :=
  log.filter fun e => match e with
    | .destroy_byte_array _ => true
    | _ => false

/-- The accumulators handed over to the caller by a sequence of extraction calls. -/
def transfers : List released → List byte_array_t
  | [] => []
  | .body (some b) :: rest => b :: transfers rest
  | _ :: rest => transfers rest

/-- The jockey's response replaced and calls added to the log: the effect on the
world of extraction calls made through the pointer `&jockey->response`. -/
def with_response (response : http_op_response) (events : List Event) (w : World) : World :=
  { w with log := w.log ++ events, jockey := { w.jockey with response := response } }

/-! ## Theorems -/

theorem body_phase_iff (w : World) (i m : Nat) (acc : List byte) (evs : List read_outcome) :
    body_phase w i m acc evs ↔ (w.jockey.state = HTTP_OP_JOCKEY_READING_BODY ∧
      w.jockey.content = .stream i ∧
      w.jockey.response.body = some { max_size := m, data := acc } ∧
      (w.streams i).pending = evs) :=
  ⟨fun h => ⟨h.1, h.2, h.3, h.4⟩, fun h => ⟨h.1, h.2.1, h.2.2.1, h.2.2.2⟩⟩

theorem EAGAIN_ne_ENOSPC : EAGAIN ≠ ENOSPC := by decide

@[simp] theorem scheduled_append (l₁ l₂ : List Event) :
    scheduled (l₁ ++ l₂) = scheduled l₁ ++ scheduled l₂ := by
  simp [scheduled]

/-- A body poll on a stream at its end: Done, with the response untouched. -/
theorem poll_body_eof {w : World} {i m : Nat} {acc : List byte}
    (h : body_phase w i m acc []) :
    ∃ w', http_op_jockey_receive_response w = some (some w.jockey.response, w') ∧
      w'.jockey.state = HTTP_OP_JOCKEY_DONE ∧ w'.jockey.response = w.jockey.response := by
  obtain ⟨hs, hc, hb, hp⟩ := h
  rcases w with ⟨⟨errno, op, streams, uid, log⟩, ⟨async, opn, uid, state, error, content,
    ⟨envelope, body⟩, callback⟩⟩
  simp only at hs hc hb hp
  subst hs hc hb
  by_cases hfull : m ≤ acc.length
  · simp [http_op_jockey_receive_response, probe_body, probe_body_lookahead, store_body, byte_array_append_stream, hfull, emit,
      bytestream_1_read, hp, probe_body_outcome, set_state, receive_response_result]
  · simp [http_op_jockey_receive_response, probe_body, probe_body_lookahead, store_body, byte_array_append_stream, hfull, emit,
      bytestream_1_read, hp, probe_body_outcome, set_state, receive_response_result, read_frame]

/-- A body poll that meets a try-again: nothing but the stream's script moves. -/
theorem poll_body_again {w : World} {i m : Nat} {acc : List byte} {rest : List read_outcome}
    (h : body_phase w i m acc (.fail EAGAIN :: rest)) :
    ∃ w', http_op_jockey_receive_response w = some (none, w') ∧
      body_phase w' i m acc rest ∧ w'.jockey = w.jockey ∧ w'.errno = EAGAIN := by
  obtain ⟨hs, hc, hb, hp⟩ := h
  rcases w with ⟨⟨errno, op, streams, uid, log⟩, ⟨async, opn, uid, state, error, content,
    ⟨envelope, body⟩, callback⟩⟩
  simp only at hs hc hb hp
  subst hs hc hb
  by_cases hfull : m ≤ acc.length
  · simp [http_op_jockey_receive_response, probe_body, probe_body_lookahead, store_body, byte_array_append_stream, hfull, emit,
      bytestream_1_read, hp, probe_body_outcome, set_state, receive_response_result, put_stream,
      body_phase_iff]
  · simp [http_op_jockey_receive_response, probe_body, probe_body_lookahead, store_body, byte_array_append_stream, hfull, emit,
      bytestream_1_read, hp, probe_body_outcome, set_state, receive_response_result, read_frame,
      put_stream, EAGAIN_ne_ENOSPC, body_phase_iff]

/-- A body poll that finds bytes while the accumulator has room: the bytes
that fit in the chunk are appended and the jockey stays in the body phase. -/
theorem poll_body_bytes {w : World} {i m : Nat} {acc bs : List byte} {rest : List read_outcome}
    (h : body_phase w i m acc (.bytes bs :: rest)) (hbs : bs ≠ []) (hroom : acc.length < m) :
    ∃ w', http_op_jockey_receive_response w = some (none, w') ∧
      body_phase w' i m (acc ++ bs.take (min 2048 (m - acc.length)))
        (leftover (min 2048 (m - acc.length)) bs rest) := by
  obtain ⟨hs, hc, hb, hp⟩ := h
  rcases w with ⟨⟨errno, op, streams, uid, log⟩, ⟨async, opn, uid, state, error, content,
    ⟨envelope, body⟩, callback⟩⟩
  simp only at hs hc hb hp
  subst hs hc hb
  have hfull : ¬ m ≤ acc.length := by omega
  have hpos : 0 < (bs.take (min 2048 (m - acc.length))).length := by
    cases bs with
    | nil => exact absurd rfl hbs
    | cons b bs =>
      simp only [List.length_take, List.length_cons]
      omega
  have hpos' : (0 : Int) < ((bs.take (min 2048 (m - acc.length))).length : Int) := by
    exact_mod_cast hpos
  have hnn : ¬ ((bs.take (min 2048 (m - acc.length))).length : Int) < 0 := by omega
  have hnz : ¬ ((bs.take (min 2048 (m - acc.length))).length : Int) = 0 := by omega
  simp only [http_op_jockey_receive_response, probe_body, probe_body_lookahead, store_body, byte_array_append_stream, hfull,
    read_frame, bytestream_1_read, emit, hp, if_false, hpos', if_true, hnn, false_and,
    probe_body_outcome, hnz, async_execute, put_stream, Option.map_some',
    receive_response_result, body_phase_iff]
  exact ⟨_, rfl, rfl, rfl, rfl, by simp⟩

/-- A body poll that finds bytes while the accumulator is full: the lookahead
read gets one of them and the jockey fails with `EMSGSIZE`. -/
theorem poll_body_overflow {w : World} {i m : Nat} {acc bs : List byte}
    {rest : List read_outcome}
    (h : body_phase w i m acc (.bytes bs :: rest)) (hbs : bs ≠ []) (hfull : m ≤ acc.length) :
    ∃ w', http_op_jockey_receive_response w = some (none, w') ∧
      w'.jockey.state = HTTP_OP_JOCKEY_FAILED ∧ w'.jockey.error = EMSGSIZE ∧
      w'.errno = EMSGSIZE := by
  obtain ⟨hs, hc, hb, hp⟩ := h
  rcases w with ⟨⟨errno, op, streams, uid, log⟩, ⟨async, opn, uid, state, error, content,
    ⟨envelope, body⟩, callback⟩⟩
  simp only at hs hc hb hp
  subst hs hc hb
  cases bs with
  | nil => exact absurd rfl hbs
  | cons b bs =>
    simp [http_op_jockey_receive_response, probe_body, probe_body_lookahead, store_body, byte_array_append_stream, hfull, emit,
      bytestream_1_read, hp, set_state, set_error, receive_response_result, put_stream]

/-- Polling a terminal state leaves the jockey, the collaborators and the log alone. -/
theorem poll_terminal {w : World} (h : terminal w.jockey.state) :
    ∃ r w', http_op_jockey_receive_response w = some (r, w') ∧ w'.jockey = w.jockey ∧
      w'.log = w.log ∧ w'.op = w.op ∧ w'.streams = w.streams ∧ w'.next_uid = w.next_uid ∧
      (w.jockey.state = HTTP_OP_JOCKEY_DONE → r = some w.jockey.response ∧ w' = w) ∧
      (w.jockey.state = HTTP_OP_JOCKEY_FAILED → r = none ∧ w'.errno = w.jockey.error) ∧
      (w.jockey.state = HTTP_OP_JOCKEY_ZOMBIE → r = none ∧ w'.errno = EINVAL) ∧
      http_op_jockey_receive_response w' = some (r, w') := by
  rcases w with ⟨⟨errno, op, streams, uid, log⟩, ⟨async, opn, uid, state, error, content,
    ⟨envelope, body⟩, callback⟩⟩
  simp only [terminal] at h
  rcases h with h | h | h <;> subst h <;> refine ⟨_, _, rfl, ?_⟩ <;>
    simp [http_op_jockey_receive_response, receive_response_result]

/-- Polls compose. -/
theorem polls_add (a b : Nat) (w : World) :
    polls (a + b) w = (polls a w).bind (polls b) := by
  induction a generalizing w with
  | zero => simp [polls]
  | succ a ih =>
    rw [Nat.add_right_comm]
    simp only [polls]
    cases http_op_jockey_receive_response w with
    | none => simp
    | some p => simp [ih]

/-- However often a terminal state is polled, the jockey stays as it is. -/
theorem polls_terminal {w : World} (h : terminal w.jockey.state) (k : Nat) :
    ∃ w', polls k w = some w' ∧ w'.jockey = w.jockey := by
  induction k generalizing w with
  | zero => exact ⟨w, rfl, rfl⟩
  | succ k ih =>
    obtain ⟨r, w1, hp, hj, -⟩ := poll_terminal h
    obtain ⟨w2, hk, hj2⟩ := ih (w := w1) (by rw [hj]; exact h)
    exact ⟨w2, by simp [polls, hp, hk], by rw [hj2, hj]⟩

theorem delivered_length_pos_of_bytes {bs : List byte} (rest : List read_outcome)
    (hbs : bs ≠ []) : 0 < (delivered (.bytes bs :: rest)).length := by
  cases bs with
  | nil => exact absurd rfl hbs
  | cons b bs => simp [delivered]

theorem delivered_leftover (n : Nat) (bs : List byte) (rest : List read_outcome) :
    bs.take n ++ delivered (leftover n bs rest) = bs ++ delivered rest := by
  unfold leftover
  by_cases hd : bs.drop n = []
  · have ht := List.take_append_drop n bs
    rw [hd, List.append_nil] at ht
    rw [if_pos hd, ht]
  · rw [if_neg hd]
    simp only [delivered]
    rw [← List.append_assoc, List.take_append_drop]

theorem delivered_leftover_length (n : Nat) (bs : List byte) (rest : List read_outcome) :
    (bs.take n).length + (delivered (leftover n bs rest)).length =
      bs.length + (delivered rest).length := by
  rw [← List.length_append, delivered_leftover, List.length_append]

theorem well_behaved_leftover (n : Nat) (bs : List byte) {rest : List read_outcome}
    (h : well_behaved rest) : well_behaved (leftover n bs rest) := by
  unfold leftover
  by_cases hd : bs.drop n = []
  · rw [if_pos hd]; exact h
  · rw [if_neg hd]; exact ⟨hd, h⟩

theorem leftover_length_le (n : Nat) (bs : List byte) (rest : List read_outcome) :
    (leftover n bs rest).length ≤ rest.length + 1 := by
  unfold leftover
  split <;> simp

theorem take_length_pos {bs : List byte} (hbs : bs ≠ []) {n : Nat} (hn : 0 < n) :
    0 < (bs.take n).length := by
  cases bs with
  | nil => exact absurd rfl hbs
  | cons b bs =>
    simp only [List.length_take, List.length_cons]
    omega

theorem take_length_le (n : Nat) (bs : List byte) : (bs.take n).length ≤ n := by
  simp only [List.length_take]
  omega

theorem polls_step {w w' : World} {r : Option http_op_response}
    (h : http_op_jockey_receive_response w = some (r, w')) (j : Nat) :
    polls (j + 1) w = polls j w' := by
  simp [polls, h]

/-- A run of body polls extended by one poll in front. -/
theorem body_run_cons {w w' : World} {r : Option http_op_response} {i k : Nat}
    (hpoll : http_op_jockey_receive_response w = some (r, w'))
    (hstate : w.jockey.state = HTTP_OP_JOCKEY_READING_BODY)
    (hpend : (w.streams i).pending ≠ [])
    (hrun : ∀ j, j ≤ k → ∃ wj, polls j w' = some wj ∧
      wj.jockey.state = HTTP_OP_JOCKEY_READING_BODY ∧ (j < k → (wj.streams i).pending ≠ [])) :
    ∀ j, j ≤ k + 1 → ∃ wj, polls j w = some wj ∧
      wj.jockey.state = HTTP_OP_JOCKEY_READING_BODY ∧
      (j < k + 1 → (wj.streams i).pending ≠ []) := by
  intro j hj
  cases j with
  | zero => exact ⟨w, rfl, hstate, fun _ => hpend⟩
  | succ j =>
    obtain ⟨wj, h1, h2, h3⟩ := hrun j (by omega)
    exact ⟨wj, by rw [polls_step hpoll]; exact h1, h2, fun hlt => h3 (by omega)⟩

/-- Body within the cap, by induction on the size of the script: after some
number of polls the stream is exhausted, all delivered bytes are buffered,
and the jockey was in the body phase all along. -/
theorem body_within_cap {i m : Nat} (n : Nat) :
    ∀ (w : World) (acc : List byte) (evs : List read_outcome),
      body_phase w i m acc evs → well_behaved evs →
      acc.length + (delivered evs).length ≤ m →
      evs.length + (delivered evs).length ≤ n →
      ∃ k wk, polls k w = some wk ∧ body_phase wk i m (acc ++ delivered evs) [] ∧
        ∀ j, j ≤ k → ∃ wj, polls j w = some wj ∧
          wj.jockey.state = HTTP_OP_JOCKEY_READING_BODY ∧
          (j < k → (wj.streams i).pending ≠ []) := by
  induction n with
  | zero =>
    intro w acc evs h hwb hcap hn
    have hnil : evs = [] := by
      cases evs with
      | nil => rfl
      | cons ev rest => simp at hn
    subst hnil
    refine ⟨0, w, rfl, by simpa [delivered] using h, fun j hj => ?_⟩
    have hj0 : j = 0 := by omega
    subst hj0
    exact ⟨w, rfl, h.state, fun hlt => absurd hlt (by omega)⟩
  | succ n ih =>
    intro w acc evs h hwb hcap hn
    cases evs with
    | nil =>
      refine ⟨0, w, rfl, by simpa [delivered] using h, fun j hj => ?_⟩
      have hj0 : j = 0 := by omega
      subst hj0
      exact ⟨w, rfl, h.state, fun hlt => absurd hlt (by omega)⟩
    | cons ev rest =>
      have hpend : (w.streams i).pending ≠ [] := by rw [h.pending]; simp
      cases ev with
      | fail e =>
        obtain ⟨he, hwb'⟩ := hwb
        subst he
        obtain ⟨w', hpoll, h', -, -⟩ := poll_body_again h
        simp only [delivered, List.length_cons] at hcap hn ⊢
        obtain ⟨k, wk, hk, hfin, hrun⟩ := ih w' acc rest h' hwb' hcap (by omega)
        exact ⟨k + 1, wk, by rw [polls_step hpoll]; exact hk, hfin,
          body_run_cons hpoll h.state hpend hrun⟩
      | bytes bs =>
        obtain ⟨hbs, hwb'⟩ := hwb
        have hpos := delivered_length_pos_of_bytes rest hbs
        have hroom : acc.length < m := by omega
        obtain ⟨w', hpoll, h'⟩ := poll_body_bytes h hbs hroom
        simp only [delivered, List.length_cons, List.length_append] at hcap hn hpos ⊢
        have htake := take_length_pos hbs (show 0 < min 2048 (m - acc.length) by omega)
        have hsum := delivered_leftover_length (min 2048 (m - acc.length)) bs rest
        have hshort := leftover_length_le (min 2048 (m - acc.length)) bs rest
        obtain ⟨k, wk, hk, hfin, hrun⟩ := ih w' _ _ h' (well_behaved_leftover _ bs hwb')
          (by rw [List.length_append]; omega) (by omega)
        rw [List.append_assoc, delivered_leftover] at hfin
        exact ⟨k + 1, wk, by rw [polls_step hpoll]; exact hk, hfin,
          body_run_cons hpoll h.state hpend hrun⟩

/-- A run of polls extended by one poll in front. -/
theorem polls_run_cons {w w' : World} {r : Option http_op_response} {k : Nat}
    {P : World → Prop}
    (hpoll : http_op_jockey_receive_response w = some (r, w')) (h0 : P w)
    (hrun : ∀ j, j ≤ k → ∃ wj, polls j w' = some wj ∧ P wj) :
    ∀ j, j ≤ k + 1 → ∃ wj, polls j w = some wj ∧ P wj := by
  intro j hj
  cases j with
  | zero => exact ⟨w, rfl, h0⟩
  | succ j =>
    obtain ⟨wj, h1, h2⟩ := hrun j (by omega)
    exact ⟨wj, by rw [polls_step hpoll]; exact h1, h2⟩

/-- Body over the cap, by induction on the size of the script: after some
number of polls in the body phase, one poll fails with `EMSGSIZE`. -/
theorem body_over_cap {i m : Nat} (n : Nat) :
    ∀ (w : World) (acc : List byte) (evs : List read_outcome),
      body_phase w i m acc evs → well_behaved evs →
      acc.length ≤ m → m < acc.length + (delivered evs).length →
      evs.length + (delivered evs).length ≤ n →
      ∃ k wk wf, polls k w = some wk ∧
        (∀ j, j ≤ k → ∃ wj, polls j w = some wj ∧
          wj.jockey.state = HTTP_OP_JOCKEY_READING_BODY) ∧
        http_op_jockey_receive_response wk = some (none, wf) ∧
        wf.jockey.state = HTTP_OP_JOCKEY_FAILED ∧ wf.jockey.error = EMSGSIZE ∧
        wf.errno = EMSGSIZE := by
  induction n with
  | zero =>
    intro w acc evs h hwb hfit hover hn
    have hnil : (delivered evs).length = 0 := by omega
    omega
  | succ n ih =>
    intro w acc evs h hwb hfit hover hn
    cases evs with
    | nil => simp [delivered] at hover; omega
    | cons ev rest =>
      cases ev with
      | fail e =>
        obtain ⟨he, hwb'⟩ := hwb
        subst he
        obtain ⟨w', hpoll, h', -, -⟩ := poll_body_again h
        simp only [delivered, List.length_cons] at hover hn
        obtain ⟨k, wk, wf, hk, hrun, hfin⟩ := ih w' acc rest h' hwb' hfit hover (by omega)
        exact ⟨k + 1, wk, wf, by rw [polls_step hpoll]; exact hk,
          polls_run_cons hpoll h.state hrun, hfin⟩
      | bytes bs =>
        obtain ⟨hbs, hwb'⟩ := hwb
        by_cases hfull : m ≤ acc.length
        · obtain ⟨wf, hpoll, hfin⟩ := poll_body_overflow h hbs hfull
          refine ⟨0, w, wf, rfl, fun j hj => ?_, hpoll, hfin⟩
          have hj0 : j = 0 := by omega
          subst hj0
          exact ⟨w, rfl, h.state⟩
        · have hroom : acc.length < m := by omega
          obtain ⟨w', hpoll, h'⟩ := poll_body_bytes h hbs hroom
          simp only [delivered, List.length_cons, List.length_append] at hover hn
          have htake := take_length_pos hbs (show 0 < min 2048 (m - acc.length) by omega)
          have htle := take_length_le (min 2048 (m - acc.length)) bs
          have hsum := delivered_leftover_length (min 2048 (m - acc.length)) bs rest
          have hshort := leftover_length_le (min 2048 (m - acc.length)) bs rest
          obtain ⟨k, wk, wf, hk, hrun, hfin⟩ := ih w' _ _ h' (well_behaved_leftover _ bs hwb')
            (by rw [List.length_append]; omega) (by rw [List.length_append]; omega) (by omega)
          exact ⟨k + 1, wk, wf, by rw [polls_step hpoll]; exact hk,
            polls_run_cons hpoll h.state hrun, hfin⟩

/-- After `k` polls and one more poll into a terminal state, every later
sequence of polls ends with the same jockey. -/
theorem polls_after_terminal {w wk wt : World} {r : Option http_op_response} {k : Nat}
    (hk : polls k w = some wk) (hpoll : http_op_jockey_receive_response wk = some (r, wt))
    (hterm : terminal wt.jockey.state) (j : Nat) (hj : k < j) :
    ∃ wj, polls j w = some wj ∧ wj.jockey = wt.jockey := by
  obtain ⟨t, rfl⟩ : ∃ t, j = k + (t + 1) := ⟨j - k - 1, by omega⟩
  obtain ⟨wj, h1, h2⟩ := polls_terminal hterm t
  exact ⟨wj, by rw [polls_add, hk, Option.some_bind, polls_step hpoll]; exact h1, h2⟩

/-- C1: body within the cap is buffered exactly.  A jockey in the body phase
with an empty accumulator of capacity `m`, reading a stream whose script
delivers at most `m` bytes in positive reads and try-again results: some
number `k` of polls stay in the body phase with the stream not yet exhausted,
after them the stream is at its end, the next poll (which observes the end of
the stream) returns the response and leaves the jockey Done with exactly the
delivered bytes buffered, and no number of polls leaves the jockey Failed. -/
theorem C1_body_within_cap_buffered_exactly (w : World) (i m : Nat) (evs : List read_outcome)
    (hstate : w.jockey.state = HTTP_OP_JOCKEY_READING_BODY)
    (hcontent : w.jockey.content = .stream i)
    (hbody : w.jockey.response.body = some (make_byte_array m))
    (hpending : (w.streams i).pending = evs)
    (hwb : well_behaved evs)
    (hcap : (delivered evs).length ≤ m) :
    ∃ k wk wd,
      (∀ j, j ≤ k → ∃ wj, polls j w = some wj ∧
        wj.jockey.state = HTTP_OP_JOCKEY_READING_BODY ∧
        (j < k → (wj.streams i).pending ≠ [])) ∧
      polls k w = some wk ∧ (wk.streams i).pending = [] ∧
      http_op_jockey_receive_response wk = some (some wd.jockey.response, wd) ∧
      wd.jockey.state = HTTP_OP_JOCKEY_DONE ∧
      wd.jockey.response.body = some { max_size := m, data := delivered evs } ∧
      (∀ j, k < j → ∃ wj, polls j w = some wj ∧
        wj.jockey.state = HTTP_OP_JOCKEY_DONE ∧
        wj.jockey.response.body = some { max_size := m, data := delivered evs }) ∧
      (∀ j, ∃ wj, polls j w = some wj ∧ wj.jockey.state ≠ HTTP_OP_JOCKEY_FAILED) := by
  have h : body_phase w i m [] evs := ⟨hstate, hcontent, hbody, hpending⟩
  obtain ⟨k, wk, hk, hfin, hrun⟩ :=
    body_within_cap (evs.length + (delivered evs).length) w [] evs h hwb
      (by simpa using hcap) (le_refl _)
  rw [List.nil_append] at hfin
  obtain ⟨wd, hpoll, hdone, hresp⟩ := poll_body_eof hfin
  have hbody' : wd.jockey.response.body = some { max_size := m, data := delivered evs } := by
    rw [hresp]; exact hfin.body
  have hlater := polls_after_terminal hk hpoll (Or.inl hdone)
  refine ⟨k, wk, wd, hrun, hk, hfin.pending, by rw [hresp]; exact hpoll, hdone, hbody', ?_, ?_⟩
  · intro j hj
    obtain ⟨wj, h1, h2⟩ := hlater j hj
    exact ⟨wj, h1, by rw [h2]; exact hdone, by rw [h2]; exact hbody'⟩
  · intro j
    by_cases hj : j ≤ k
    · obtain ⟨wj, h1, h2, -⟩ := hrun j hj
      exact ⟨wj, h1, by rw [h2]; decide⟩
    · obtain ⟨wj, h1, h2⟩ := hlater j (by omega)
      exact ⟨wj, h1, by rw [h2, hdone]; decide⟩

/-- C2: oversize bodies always fail with `EMSGSIZE`.  Same setting as C1, but
the script delivers more than `m` bytes: some number `k` of polls stay in the
body phase, the next poll returns no response with `errno` = `EMSGSIZE` and
leaves the jockey Failed with stored error `EMSGSIZE`, where it stays, and no
number of polls leaves the jockey Done. -/
theorem C2_oversize_body_fails_EMSGSIZE (w : World) (i m : Nat) (evs : List read_outcome)
    (hstate : w.jockey.state = HTTP_OP_JOCKEY_READING_BODY)
    (hcontent : w.jockey.content = .stream i)
    (hbody : w.jockey.response.body = some (make_byte_array m))
    (hpending : (w.streams i).pending = evs)
    (hwb : well_behaved evs)
    (hover : m < (delivered evs).length) :
    ∃ k wk wf,
      (∀ j, j ≤ k → ∃ wj, polls j w = some wj ∧
        wj.jockey.state = HTTP_OP_JOCKEY_READING_BODY) ∧
      polls k w = some wk ∧
      http_op_jockey_receive_response wk = some (none, wf) ∧
      wf.jockey.state = HTTP_OP_JOCKEY_FAILED ∧ wf.jockey.error = EMSGSIZE ∧
      wf.errno = EMSGSIZE ∧
      (∀ j, k < j → ∃ wj, polls j w = some wj ∧
        wj.jockey.state = HTTP_OP_JOCKEY_FAILED ∧ wj.jockey.error = EMSGSIZE) ∧
      (∀ j, ∃ wj, polls j w = some wj ∧ wj.jockey.state ≠ HTTP_OP_JOCKEY_DONE) := by
  have h : body_phase w i m [] evs := ⟨hstate, hcontent, hbody, hpending⟩
  obtain ⟨k, wk, wf, hk, hrun, hpoll, hfailed, herror, herrno⟩ :=
    body_over_cap (evs.length + (delivered evs).length) w [] evs h hwb
      (Nat.zero_le _) (by simpa using hover) (le_refl _)
  have hlater := polls_after_terminal hk hpoll (Or.inr (Or.inl hfailed))
  refine ⟨k, wk, wf, hrun, hk, hpoll, hfailed, herror, herrno, ?_, ?_⟩
  · intro j hj
    obtain ⟨wj, h1, h2⟩ := hlater j hj
    exact ⟨wj, h1, by rw [h2]; exact hfailed, by rw [h2]; exact herror⟩
  · intro j
    by_cases hj : j ≤ k
    · obtain ⟨wj, h1, h2⟩ := hrun j hj
      exact ⟨wj, h1, by rw [h2]; decide⟩
    · obtain ⟨wj, h1, h2⟩ := hlater j (by omega)
      exact ⟨wj, h1, by rw [h2, hfailed]; decide⟩

/-! ### Frame lemmas for the collaborators -/

theorem bytestream_1_read_jockey (s : bytestream_1) (n : Nat) (w : World) :
    (bytestream_1_read s n w).world.jockey = w.jockey := by
  unfold bytestream_1_read
  cases s with
  | drystream => rfl
  | stream i =>
    simp only
    split <;> rfl

theorem bytestream_1_read_scheduled (s : bytestream_1) (n : Nat) (w : World) :
    scheduled (bytestream_1_read s n w).world.log = scheduled w.log := by
  unfold bytestream_1_read
  cases s with
  | drystream => simp [emit, scheduled]
  | stream i =>
    simp only
    split <;> simp [emit, put_stream, scheduled]

theorem byte_array_append_stream_jockey (array : byte_array_t) (s : bytestream_1) (len : Nat)
    (w : World) : (byte_array_append_stream array s len w).world.jockey = w.jockey := by
  unfold byte_array_append_stream
  simp only
  split
  · rfl
  · simp only [read_frame, bytestream_1_read_jockey]
    rfl

theorem byte_array_append_stream_scheduled (array : byte_array_t) (s : bytestream_1)
    (len : Nat) (w : World) :
    scheduled (byte_array_append_stream array s len w).world.log = scheduled w.log := by
  unfold byte_array_append_stream
  simp only
  split
  · simp [emit, scheduled]
  · simp only [read_frame, bytestream_1_read_scheduled]
    simp [emit, scheduled]

theorem byte_array_append_stream_array_of_neg {array : byte_array_t} {s : bytestream_1}
    {len : Nat} {w : World} (h : (byte_array_append_stream array s len w).count < 0) :
    (byte_array_append_stream array s len w).array = array := by
  unfold byte_array_append_stream at h ⊢
  simp only at h ⊢
  split
  · rfl
  · rename_i hfull
    simp only [hfull, if_false] at h
    simp only
    rw [if_neg (by omega)]

theorem http_op_receive_response_jockey (w : World) :
    (http_op_receive_response w).2.jockey = w.jockey := by
  unfold http_op_receive_response
  split <;> rfl

theorem http_op_receive_response_scheduled (w : World) :
    scheduled (http_op_receive_response w).2.log = scheduled w.log := by
  unfold http_op_receive_response
  split <;> simp [emit, scheduled]

theorem EAGAIN_ne_zero : EAGAIN ≠ 0 := by decide

/-- The result switch on a world that is still reading. -/
theorem receive_response_result_reading {w : World}
    (h : w.jockey.state = HTTP_OP_JOCKEY_READING_HEADERS ∨
      w.jockey.state = HTTP_OP_JOCKEY_READING_BODY) :
    receive_response_result w = (none, w) := by
  unfold receive_response_result
  rcases h with h | h <;> rw [h]

/-- The result switch on a failed world. -/
theorem receive_response_result_failed {w : World}
    (h : w.jockey.state = HTTP_OP_JOCKEY_FAILED) :
    receive_response_result w = (none, { w with errno := w.jockey.error }) := by
  unfold receive_response_result
  rw [h]

/-- Writing back the accumulator that is already there changes nothing. -/
theorem store_body_same (w : World) (array : byte_array_t)
    (h : w.jockey.response.body = some array) : store_body array w = w := by
  unfold store_body
  rw [← h]

/-- The function `probe_body` when the accumulator is present. -/
theorem probe_body_eq {w : World} {body : byte_array_t}
    (hb : w.jockey.response.body = some body) :
    probe_body w = some (probe_body_lookahead
      (byte_array_append_stream body w.jockey.content 2048 w).count
      (store_body (byte_array_append_stream body w.jockey.content 2048 w).array
        (byte_array_append_stream body w.jockey.content 2048 w).world)) := by
  simp only [probe_body, hb]

/-- A poll in the body phase is `probe_body` followed by the result switch. -/
theorem poll_reading_body {w : World} (hs : w.jockey.state = HTTP_OP_JOCKEY_READING_BODY) :
    http_op_jockey_receive_response w = (probe_body w).map receive_response_result := by
  simp only [http_op_jockey_receive_response, hs]

/-- A poll in the header phase is `probe_headers` followed by the result switch. -/
theorem poll_reading_headers {w : World}
    (hs : w.jockey.state = HTTP_OP_JOCKEY_READING_HEADERS) :
    http_op_jockey_receive_response w = some (receive_response_result (probe_headers w)) := by
  simp only [http_op_jockey_receive_response, hs, Option.map_some']

/-- A negative count with `errno` = `EAGAIN` is left alone by the outcome handling. -/
theorem probe_body_outcome_again {count : Int} {w : World} (hneg : count < 0)
    (herr : w.errno = EAGAIN) : probe_body_outcome count w = w := by
  simp [probe_body_outcome, hneg, herr]

/-- A poll that meets a try-again, in the header phase, at the append or at the
lookahead, returns NULL with `EAGAIN` and leaves the jockey as it is. -/
theorem poll_try_again (w : World)
    (h : (w.jockey.state = HTTP_OP_JOCKEY_READING_HEADERS ∧
          (http_op_receive_response { w with errno := 0 }).1 = none ∧
          (http_op_receive_response { w with errno := 0 }).2.errno = EAGAIN) ∨
         (w.jockey.state = HTTP_OP_JOCKEY_READING_BODY ∧
          ∃ body, w.jockey.response.body = some body ∧
            (byte_array_append_stream body w.jockey.content 2048 w).count < 0 ∧
            ((byte_array_append_stream body w.jockey.content 2048 w).world.errno = EAGAIN ∨
             ((byte_array_append_stream body w.jockey.content 2048 w).world.errno = ENOSPC ∧
              (bytestream_1_read w.jockey.content 1
                (byte_array_append_stream body w.jockey.content 2048 w).world).count < 0 ∧
              (bytestream_1_read w.jockey.content 1
                (byte_array_append_stream body w.jockey.content 2048 w).world).world.errno
                = EAGAIN)))) :
    ∃ w', http_op_jockey_receive_response w = some (none, w') ∧ w'.errno = EAGAIN ∧
      w'.jockey = w.jockey ∧ scheduled w'.log = scheduled w.log := by
  rcases h with ⟨hs, hret, herr⟩ | ⟨hs, body, hb, hneg, h⟩
  · have hj := http_op_receive_response_jockey { w with errno := 0 }
    refine ⟨(http_op_receive_response { w with errno := 0 }).2, ?_, herr, hj,
      http_op_receive_response_scheduled _⟩
    have hprobe : probe_headers w = (http_op_receive_response { w with errno := 0 }).2 := by
      simp only [probe_headers, hret, herr, EAGAIN_ne_zero, ne_eq, not_false_eq_true,
        if_true]
    simp only [http_op_jockey_receive_response, hs, hprobe, Option.map_some']
    rw [receive_response_result_reading (Or.inl (by rw [hj]; exact hs))]
  · have hj := byte_array_append_stream_jockey body w.jockey.content 2048 w
    have harr := byte_array_append_stream_array_of_neg hneg
    have hsch := byte_array_append_stream_scheduled body w.jockey.content 2048 w
    rw [poll_reading_body hs, probe_body_eq hb]
    generalize byte_array_append_stream body w.jockey.content 2048 w = a at hj harr hsch hneg h
    have hbody : a.world.jockey.response.body = some a.array := by rw [hj, harr, hb]
    have hstate : a.world.jockey.state = HTTP_OP_JOCKEY_READING_BODY := by rw [hj, hs]
    rw [store_body_same _ _ hbody]
    rcases h with herr | ⟨herr, hneg2, herr2⟩
    · refine ⟨a.world, ?_, herr, hj, hsch⟩
      have hne : ¬ a.world.errno = ENOSPC := by rw [herr]; exact EAGAIN_ne_ENOSPC
      simp only [probe_body_lookahead, hne, and_false, if_false,
        probe_body_outcome_again hneg herr, Option.map_some',
        receive_response_result_reading (Or.inr hstate)]
    · have hj2 := bytestream_1_read_jockey w.jockey.content 1 a.world
      have hsch2 := bytestream_1_read_scheduled w.jockey.content 1 a.world
      have hnpos : ¬ 0 < (bytestream_1_read w.jockey.content 1 a.world).count := by omega
      have hstate2 : (bytestream_1_read w.jockey.content 1 a.world).world.jockey.state =
          HTTP_OP_JOCKEY_READING_BODY := by rw [hj2, hstate]
      refine ⟨(bytestream_1_read w.jockey.content 1 a.world).world, ?_, herr2,
        by rw [hj2, hj], by rw [hsch2, hsch]⟩
      simp only [probe_body_lookahead, hneg, herr, and_self, if_true, hj, hnpos, if_false,
        probe_body_outcome_again hneg2 herr2, Option.map_some',
        receive_response_result_reading (Or.inr hstate2)]

/-- C3: a try-again poll changes nothing.  If the jockey is in ReadingHeaders
and `http_op_receive_response` returns NULL with `errno` = `EAGAIN`, or it is
in ReadingBody and the append fails with `EAGAIN`, or the append fails with
`ENOSPC` and the 1-byte lookahead then fails with `EAGAIN`, the poll returns
no response with `errno` = `EAGAIN`, every field of the jockey is as before,
and no callback is scheduled. -/
theorem C3_try_again_changes_nothing (w : World)
    (h : (w.jockey.state = HTTP_OP_JOCKEY_READING_HEADERS ∧
          (http_op_receive_response { w with errno := 0 }).1 = none ∧
          (http_op_receive_response { w with errno := 0 }).2.errno = EAGAIN) ∨
         (w.jockey.state = HTTP_OP_JOCKEY_READING_BODY ∧
          ∃ body, w.jockey.response.body = some body ∧
            (byte_array_append_stream body w.jockey.content 2048 w).count < 0 ∧
            ((byte_array_append_stream body w.jockey.content 2048 w).world.errno = EAGAIN ∨
             ((byte_array_append_stream body w.jockey.content 2048 w).world.errno = ENOSPC ∧
              (bytestream_1_read w.jockey.content 1
                (byte_array_append_stream body w.jockey.content 2048 w).world).count < 0 ∧
              (bytestream_1_read w.jockey.content 1
                (byte_array_append_stream body w.jockey.content 2048 w).world).world.errno
                = EAGAIN)))) :
    ∃ w', http_op_jockey_receive_response w = some (none, w') ∧ w'.errno = EAGAIN ∧
      w'.jockey = w.jockey ∧ scheduled w'.log = scheduled w.log :=
  poll_try_again w h

/-- C4: header-phase failures are terminal and carry the right code.  If the
jockey is in ReadingHeaders and `http_op_receive_response` returns NULL with
`errno` = `e`, where `e` is not `EAGAIN` (so `e` = 0, the peer closed without
responding, or `e` is a genuine error), the poll returns no response with
`errno` = `e` and leaves the jockey Failed with stored error `e`, the content
stream is the one it was (the placeholder, if it was the placeholder), no
callback is scheduled, and every later poll finds it Failed with error `e`. -/
theorem C4_header_failure_terminal (w : World) (e : Int)
    (hs : w.jockey.state = HTTP_OP_JOCKEY_READING_HEADERS)
    (hret : (http_op_receive_response { w with errno := 0 }).1 = none)
    (herr : (http_op_receive_response { w with errno := 0 }).2.errno = e)
    (he : e ≠ EAGAIN) :
    ∃ w', http_op_jockey_receive_response w = some (none, w') ∧
      w'.jockey.state = HTTP_OP_JOCKEY_FAILED ∧ w'.jockey.error = e ∧ w'.errno = e ∧
      w'.jockey.content = w.jockey.content ∧
      (w.jockey.content = drystream → w'.jockey.content = drystream) ∧
      scheduled w'.log = scheduled w.log ∧
      (∀ k, ∃ wk, polls k w' = some wk ∧ wk.jockey.state = HTTP_OP_JOCKEY_FAILED ∧
        wk.jockey.error = e) := by
  have hj := http_op_receive_response_jockey { w with errno := 0 }
  have hsch := http_op_receive_response_scheduled { w with errno := 0 }
  rw [poll_reading_headers hs]
  have key : ∃ ev, probe_headers w = set_state HTTP_OP_JOCKEY_FAILED (set_error e
      (emit ev (http_op_receive_response { w with errno := 0 }).2)) ∧ scheduled [ev] = [] := by
    by_cases h0 : e = 0
    · refine ⟨.FSTRACE_RECEIVE_RESP_EOF w.jockey.uid, ?_, rfl⟩
      subst h0
      simp only [probe_headers, hret, herr, ne_eq, not_true_eq_false, if_false, hj, emit]
    · refine ⟨.FSTRACE_RECEIVE_RESP_FAIL w.jockey.uid, ?_, rfl⟩
      simp only [probe_headers, hret, herr, ne_eq, h0, not_false_eq_true, if_true, he,
        if_false, hj, emit]
  obtain ⟨ev, hprobe, hev⟩ := key
  rw [hprobe]
  generalize (http_op_receive_response { w with errno := 0 }).2 = w1 at hj hsch
  have hfailed : (set_state HTTP_OP_JOCKEY_FAILED (set_error e (emit ev w1))).jockey.state =
      HTTP_OP_JOCKEY_FAILED := rfl
  rw [receive_response_result_failed hfailed]
  refine ⟨_, rfl, rfl, rfl, rfl, ?_, ?_, ?_, ?_⟩
  · simp only [set_state, set_error, emit, hj]
  · intro hdry
    simp only [set_state, set_error, emit, hj, hdry]
  · simp only [set_state, set_error, emit, scheduled_append, hsch, hev]
    simp [scheduled]
  · intro k
    obtain ⟨wk, h1, h2⟩ := polls_terminal
      (w := { set_state HTTP_OP_JOCKEY_FAILED (set_error e (emit ev w1)) with
        errno := (set_state HTTP_OP_JOCKEY_FAILED (set_error e (emit ev w1))).jockey.error })
      (Or.inr (Or.inl rfl)) k
    exact ⟨wk, h1, by rw [h2]; rfl, by rw [h2]; rfl⟩

/-- C5: successful header arrival.  If the jockey is in ReadingHeaders,
`http_op_receive_response` returns the envelope `E` and
`http_op_get_response_content` succeeds with the stream `S`, the poll returns
no response with `errno` = `EAGAIN`; afterwards the state is ReadingBody, the
envelope is `E`, the content stream is `S`, the stored callback is as before
and sits in the callback slot of `S`, the accumulator is untouched and no
stream was read, and the calls made are exactly: the header poll, the stream
retrieval, one registration of the stored callback on `S`, and one scheduling
of the stored callback. -/
theorem C5_successful_header_arrival (w : World) (E : http_env_t) (S : bytestream_1)
    (hs : w.jockey.state = HTTP_OP_JOCKEY_READING_HEADERS)
    (hret : (http_op_receive_response { w with errno := 0 }).1 = some E)
    (hcontent : w.op.content = .ok S) :
    ∃ w', http_op_jockey_receive_response w = some (none, w') ∧
      w'.errno = EAGAIN ∧
      w'.jockey.state = HTTP_OP_JOCKEY_READING_BODY ∧
      w'.jockey.response.envelope = some E ∧
      w'.jockey.content = S ∧
      w'.jockey.callback = w.jockey.callback ∧
      w'.jockey.error = w.jockey.error ∧
      w'.jockey.response.body = w.jockey.response.body ∧
      (∀ i, S = .stream i → (w'.streams i).callback = w.jockey.callback) ∧
      (∀ i, (w'.streams i).pending = (w.streams i).pending) ∧
      w'.log = w.log ++
        [.http_op_receive_response w.jockey.op (some E),
         .FSTRACE_GOT_RESPONSE w.jockey.uid w.jockey.response.envelope (some E),
         .http_op_get_response_content w.jockey.op 0,
         .FSTRACE_SET_STATE w.jockey.uid HTTP_OP_JOCKEY_READING_HEADERS
           HTTP_OP_JOCKEY_READING_BODY,
         .bytestream_1_register_callback S w.jockey.callback,
         .async_execute w.jockey.async w.jockey.callback] ∧
      scheduled w'.log = scheduled w.log ++ [.async_execute w.jockey.async w.jockey.callback] := by
  rw [poll_reading_headers hs]
  rcases w with ⟨⟨errno, ⟨responses, content, opcb, closed⟩, streams, nuid, log⟩,
    ⟨async, opn, uid, state, error, jcontent, ⟨envelope, body⟩, callback⟩⟩
  simp only at hs hcontent
  subst hs hcontent
  cases responses with
  | nil => simp [http_op_receive_response] at hret
  | cons o rest =>
    simp only [http_op_receive_response] at hret
    cases S with
    | drystream =>
      simp [probe_headers, http_op_receive_response, hret, emit, http_op_get_response_content,
        set_state, bytestream_1_register_callback, async_execute, receive_response_result,
        scheduled]
    | stream i =>
      simp [probe_headers, http_op_receive_response, hret, emit, http_op_get_response_content,
        set_state, bytestream_1_register_callback, async_execute, receive_response_result,
        scheduled, put_stream]
      intro j
      split <;> simp_all

/-- C7: polling a terminal state is idempotent.  In Done, Failed or Zombie a
poll leaves every field of the jockey, the operation, the streams and the
log of calls as they were (so no call is made on the operation, the content
stream, the accumulator or the scheduler); it returns the response in Done,
no response with `errno` = stored error in Failed, no response with `errno`
= `EINVAL` in Zombie; and the next poll returns the same and changes nothing. -/
theorem C7_terminal_poll_idempotent (w : World)
    (h : w.jockey.state = HTTP_OP_JOCKEY_DONE ∨ w.jockey.state = HTTP_OP_JOCKEY_FAILED ∨
      w.jockey.state = HTTP_OP_JOCKEY_ZOMBIE) :
    ∃ r w', http_op_jockey_receive_response w = some (r, w') ∧ w'.jockey = w.jockey ∧
      w'.log = w.log ∧ w'.op = w.op ∧ w'.streams = w.streams ∧ w'.next_uid = w.next_uid ∧
      (w.jockey.state = HTTP_OP_JOCKEY_DONE → r = some w.jockey.response ∧ w' = w) ∧
      (w.jockey.state = HTTP_OP_JOCKEY_FAILED → r = none ∧ w'.errno = w.jockey.error) ∧
      (w.jockey.state = HTTP_OP_JOCKEY_ZOMBIE → r = none ∧ w'.errno = EINVAL) ∧
      http_op_jockey_receive_response w' = some (r, w') :=
  poll_terminal h

/-- Extraction calls on a response whose body slot is empty return NULL, make
no call and leave the response as it is. -/
theorem releases_of_empty (decode : List byte → Option json_thing_t)
    (cs : List release_call) (response : http_op_response) (h : response.body = none) :
    (∀ out ∈ (releases decode cs response).1, out.is_null = true) ∧
      (releases decode cs response).1.length = cs.length ∧
      (releases decode cs response).2.1 = response ∧
      (releases decode cs response).2.2 = [] := by
  induction cs with
  | nil => simp [releases]
  | cons c cs ih =>
    obtain ⟨envelope, body⟩ := response
    simp only at h
    subst h
    cases c <;>
      simpa [releases, release, http_op_response_release_body,
        http_op_response_release_body_as_json, released.is_null] using ih

/-- C8: the response body is extractable at most once.  The first
`http_op_response_release_body` returns the pointer the response held and
leaves the body slot empty and the envelope as it was; whatever extraction
calls follow, of either kind, each returns NULL, none makes a call (no
decoding, no destroy), and the response stays as the first call left it. -/
theorem C8_body_extractable_at_most_once (decode : List byte → Option json_thing_t)
    (response : http_op_response) (cs : List release_call) :
    (http_op_response_release_body response).1 = response.body ∧
      (http_op_response_release_body response).2.body = none ∧
      (http_op_response_release_body response).2.envelope = response.envelope ∧
      (∀ out ∈ (releases decode cs (http_op_response_release_body response).2).1,
        out.is_null = true) ∧
      (releases decode cs (http_op_response_release_body response).2).1.length = cs.length ∧
      (releases decode cs (http_op_response_release_body response).2).2.1 =
        { envelope := response.envelope, body := none } ∧
      (releases decode cs (http_op_response_release_body response).2).2.2 = [] := by
  obtain ⟨h1, h2, h3, h4⟩ :=
    releases_of_empty decode cs (http_op_response_release_body response).2 rfl
  exact ⟨rfl, rfl, rfl, h1, h2, h3, h4⟩

/-- C9: close always produces Zombie and releases each collaborator exactly
once, in order.  In any state, `http_op_jockey_close` leaves the state Zombie
and every other field of the jockey as it was (the object is not freed), and
the calls it makes are exactly, in this order: the destroy of the accumulator
if the body slot is occupied, one close of the current content stream, one
close of the operation, one request for deferred destruction. -/
theorem C9_close_releases_in_order (w : World) :
    (http_op_jockey_close w).jockey = { w.jockey with state := HTTP_OP_JOCKEY_ZOMBIE } ∧
      (http_op_jockey_close w).log = w.log ++ [.FSTRACE_DESTROY w.jockey.uid] ++
        (match w.jockey.response.body with
          | some body => [.destroy_byte_array body]
          | none => []) ++
        [.bytestream_1_close w.jockey.content, .http_op_close w.jockey.op,
         .async_wound w.jockey.async w.jockey.uid] ∧
      (http_op_jockey_close w).op.closed = w.op.closed + 1 ∧
      (∀ i, w.jockey.content = .stream i →
        ((http_op_jockey_close w).streams i).closed = (w.streams i).closed + 1) ∧
      (∀ i, w.jockey.content ≠ .stream i →
        ((http_op_jockey_close w).streams i).closed = (w.streams i).closed) := by
  rcases w with ⟨⟨errno, op, streams, nuid, log⟩,
    ⟨async, opn, uid, state, error, content, ⟨envelope, body⟩, callback⟩⟩
  cases body <;> cases content <;>
    simp [http_op_jockey_close, emit, bytestream_1_close, http_op_close, async_wound,
      put_stream]
  all_goals
    intro j hj
    simp [Ne.symm hj]

@[simp] theorem unregistrations_append (l₁ l₂ : List Event) :
    unregistrations (l₁ ++ l₂) = unregistrations l₁ ++ unregistrations l₂ := by
  simp [unregistrations]

theorem last_envelope_append (l₁ l₂ : List Event) :
    last_envelope (l₁ ++ l₂) = l₂.foldl (fun acc e => match e with
      | .http_op_receive_response _ (some E) => some E
      | _ => acc) (last_envelope l₁) := by
  simp [last_envelope, List.foldl_append]

theorem bytestream_1_read_last_envelope (s : bytestream_1) (n : Nat) (w : World) :
    last_envelope (bytestream_1_read s n w).world.log = last_envelope w.log := by
  unfold bytestream_1_read
  cases s with
  | drystream => simp [emit, last_envelope_append]
  | stream i =>
    simp only
    split <;> simp [emit, put_stream, last_envelope_append]

theorem byte_array_append_stream_last_envelope (array : byte_array_t) (s : bytestream_1)
    (len : Nat) (w : World) :
    last_envelope (byte_array_append_stream array s len w).world.log = last_envelope w.log := by
  unfold byte_array_append_stream
  simp only
  split
  · simp [emit, last_envelope_append]
  · simp only [read_frame, bytestream_1_read_last_envelope]
    simp [emit, last_envelope_append]

/-- The result switch touches nothing but `errno`. -/
theorem receive_response_result_frame (w : World) :
    (receive_response_result w).2.jockey = w.jockey ∧
      (receive_response_result w).2.log = w.log := by
  unfold receive_response_result
  split <;> exact ⟨rfl, rfl⟩

/-- What the result switch returns, read off the state. -/
theorem receive_response_result_spec (w : World) :
    (receive_response_result w).1 =
        (if w.jockey.state = HTTP_OP_JOCKEY_DONE then some w.jockey.response else none) ∧
      (w.jockey.state = HTTP_OP_JOCKEY_FAILED →
        (receive_response_result w).2.errno = w.jockey.error) ∧
      (w.jockey.state = HTTP_OP_JOCKEY_ZOMBIE →
        (receive_response_result w).2.errno = EINVAL) := by
  unfold receive_response_result
  split <;> rename_i h <;> simp [h]

/-- The outcome handling of `probe_body` keeps the response and adds no header poll. -/
theorem probe_body_outcome_frame (count : Int) (w : World) :
    (probe_body_outcome count w).jockey.response = w.jockey.response ∧
      last_envelope (probe_body_outcome count w).log = last_envelope w.log ∧
      ((probe_body_outcome count w).jockey.state = w.jockey.state ∨
        (probe_body_outcome count w).jockey.state = HTTP_OP_JOCKEY_DONE ∨
        (probe_body_outcome count w).jockey.state = HTTP_OP_JOCKEY_FAILED) := by
  unfold probe_body_outcome
  split
  · split
    · simp [set_state, set_error, emit, last_envelope_append]
    · simp
  · split
    · simp [set_state, emit, last_envelope_append]
    · simp [async_execute, emit, last_envelope_append]

/-- The lookahead part of `probe_body` keeps the response and adds no header poll. -/
theorem probe_body_lookahead_frame (count : Int) (w : World) :
    (probe_body_lookahead count w).jockey.response = w.jockey.response ∧
      last_envelope (probe_body_lookahead count w).log = last_envelope w.log ∧
      ((probe_body_lookahead count w).jockey.state = w.jockey.state ∨
        (probe_body_lookahead count w).jockey.state = HTTP_OP_JOCKEY_DONE ∨
        (probe_body_lookahead count w).jockey.state = HTTP_OP_JOCKEY_FAILED) := by
  have hj := bytestream_1_read_jockey w.jockey.content 1 w
  have hl := bytestream_1_read_last_envelope w.jockey.content 1 w
  unfold probe_body_lookahead
  split
  · simp only
    split
    · simp [set_state, set_error, emit, last_envelope_append, hj, hl]
    · obtain ⟨h1, h2, h3⟩ := probe_body_outcome_frame
        (bytestream_1_read w.jockey.content 1 w).count
        (bytestream_1_read w.jockey.content 1 w).world
      rw [hj] at h1 h3
      rw [hl] at h2
      exact ⟨h1, h2, h3⟩
  · exact probe_body_outcome_frame count w

/-- What `probe_headers` can do to a jockey in ReadingHeaders. -/
theorem probe_headers_cases (w : World)
    (hs : w.jockey.state = HTTP_OP_JOCKEY_READING_HEADERS) :
    (probe_headers w).jockey.response.body = w.jockey.response.body ∧
      ((probe_headers w).jockey.state = HTTP_OP_JOCKEY_READING_HEADERS ∨
        (probe_headers w).jockey.state = HTTP_OP_JOCKEY_FAILED ∨
        ((probe_headers w).jockey.state = HTTP_OP_JOCKEY_READING_BODY ∧
          ∃ E, (probe_headers w).jockey.response.envelope = some E ∧
            last_envelope (probe_headers w).log = some E)) := by
  rcases w with ⟨⟨errno, ⟨responses, content, opcb, closed⟩, streams, nuid, log⟩,
    ⟨async, opn, uid, state, error, jcontent, ⟨envelope, body⟩, callback⟩⟩
  simp only at hs
  subst hs
  cases responses with
  | nil => simp [probe_headers, http_op_receive_response, emit, set_state, set_error]
  | cons o rest =>
    obtain ⟨ret, err⟩ := o
    cases ret with
    | none =>
      by_cases h0 : err = 0
      · simp [probe_headers, http_op_receive_response, emit, set_state, set_error, h0]
      · by_cases h1 : err = EAGAIN
        · subst h1
          simp [probe_headers, http_op_receive_response, emit, set_state, set_error,
            EAGAIN_ne_zero]
        · simp [probe_headers, http_op_receive_response, emit, set_state, set_error, h0, h1]
    | some E =>
      cases content with
      | fail e =>
        simp [probe_headers, http_op_receive_response, emit, set_state, set_error,
          http_op_get_response_content]
      | ok S =>
        cases S <;>
          simp [probe_headers, http_op_receive_response, emit, set_state, set_error,
            http_op_get_response_content, bytestream_1_register_callback, async_execute,
            put_stream, last_envelope_append]

/-- A poll of a jockey that satisfies the invariant has a result, and the
invariant holds again. -/
theorem poll_inv {w : World} (hinv : jockey_inv w) :
    ∃ r w', http_op_jockey_receive_response w = some (r, w') ∧ jockey_inv w' := by
  by_cases hterm : terminal w.jockey.state
  · obtain ⟨r, w', hp, hj, hl, -⟩ := poll_terminal hterm
    exact ⟨r, w', hp, ⟨by rw [hj]; exact hinv.body_present,
      by rw [hj, hl]; exact hinv.envelope_installed⟩⟩
  · have hread : w.jockey.state = HTTP_OP_JOCKEY_READING_HEADERS ∨
        w.jockey.state = HTTP_OP_JOCKEY_READING_BODY := by
      unfold terminal at hterm
      cases hst : w.jockey.state <;> simp_all
    rcases hread with hs | hs
    · rw [poll_reading_headers hs]
      refine ⟨(receive_response_result (probe_headers w)).1,
        (receive_response_result (probe_headers w)).2, rfl, ?_⟩
      obtain ⟨hj, hl⟩ := receive_response_result_frame (probe_headers w)
      obtain ⟨hb, hcases⟩ := probe_headers_cases w hs
      constructor
      · intro _
        rw [hj, hb]
        exact hinv.body_present (Or.inl hs)
      · intro hst
        rw [hj] at hst ⊢
        rw [hl]
        rcases hcases with h | h | ⟨-, h⟩
        · rw [h] at hst; simp at hst
        · rw [h] at hst; simp at hst
        · exact h
    · obtain ⟨body, hb⟩ := Option.ne_none_iff_exists'.mp (hinv.body_present (Or.inr hs))
      obtain ⟨E, hE, hlast⟩ := hinv.envelope_installed (Or.inl hs)
      rw [poll_reading_body hs, probe_body_eq hb]
      have haj := byte_array_append_stream_jockey body w.jockey.content 2048 w
      have hal := byte_array_append_stream_last_envelope body w.jockey.content 2048 w
      generalize byte_array_append_stream body w.jockey.content 2048 w = a at haj hal
      refine ⟨(receive_response_result
          (probe_body_lookahead a.count (store_body a.array a.world))).1,
        (receive_response_result
          (probe_body_lookahead a.count (store_body a.array a.world))).2, rfl, ?_⟩
      obtain ⟨hj, hl⟩ := receive_response_result_frame
        (probe_body_lookahead a.count (store_body a.array a.world))
      obtain ⟨h1, h2, -⟩ := probe_body_lookahead_frame a.count (store_body a.array a.world)
      constructor
      · intro _
        rw [hj, h1]
        simp [store_body]
      · intro _
        rw [hj, hl, h1, h2]
        exact ⟨E, by simp only [store_body, haj, hE], by
          simp only [store_body]; rw [hal]; exact hlast⟩

/-- A freshly made jockey satisfies the invariant. -/
theorem make_inv (async op max_body_size : Nat) (s : Sys) :
    jockey_inv (make_http_op_jockey async op max_body_size s) :=
  ⟨fun _ => by simp [make_http_op_jockey], fun h => by simp [make_http_op_jockey] at h⟩

/-- Every call of the consumer keeps the invariant. -/
theorem api_step_inv {c : api_call} {w w' : World} (hinv : jockey_inv w)
    (hstep : api_step c w = some w') : jockey_inv w' := by
  cases c with
  | receive_response =>
    obtain ⟨r, w1, hp, hinv1⟩ := poll_inv hinv
    simp only [api_step, hp, Option.map_some', Option.some.injEq] at hstep
    subst hstep
    exact hinv1
  | close =>
    simp only [api_step, Option.some.injEq] at hstep
    subst hstep
    have hz : (http_op_jockey_close w).jockey.state = HTTP_OP_JOCKEY_ZOMBIE := by
      cases hb : w.jockey.response.body <;> simp [http_op_jockey_close, hb, emit,
        bytestream_1_close, http_op_close, async_wound]
    exact ⟨fun h => by rw [hz] at h; simp at h, fun h => by rw [hz] at h; simp at h⟩
  | register_callback action =>
    simp only [api_step, Option.some.injEq] at hstep
    subst hstep
    obtain ⟨h1, h2⟩ := hinv
    rcases w with ⟨⟨errno, op, streams, nuid, log⟩,
      ⟨async, opn, uid, state, error, content, ⟨envelope, body⟩, callback⟩⟩
    cases content <;>
      exact ⟨by simpa [http_op_jockey_register_callback, http_op_register_callback,
          bytestream_1_register_callback, emit, put_stream] using h1,
        by simpa [http_op_jockey_register_callback, http_op_register_callback,
          bytestream_1_register_callback, emit, put_stream, last_envelope_append] using h2⟩
  | unregister_callback =>
    simp only [api_step, Option.some.injEq] at hstep
    subst hstep
    obtain ⟨h1, h2⟩ := hinv
    rcases w with ⟨⟨errno, op, streams, nuid, log⟩,
      ⟨async, opn, uid, state, error, content, ⟨envelope, body⟩, callback⟩⟩
    cases content <;>
      exact ⟨by simpa [http_op_jockey_unregister_callback, http_op_unregister_callback,
          bytestream_1_unregister_callback, emit, put_stream] using h1,
        by simpa [http_op_jockey_unregister_callback, http_op_unregister_callback,
          bytestream_1_unregister_callback, emit, put_stream, last_envelope_append] using h2⟩
  | release_body =>
    by_cases hd : w.jockey.state = HTTP_OP_JOCKEY_DONE
    · simp only [api_step, hd, if_true, Option.some.injEq] at hstep
      subst hstep
      obtain ⟨E, hE, hl⟩ := hinv.envelope_installed (Or.inr hd)
      exact ⟨fun h => by simp [hd] at h,
        fun _ => ⟨E, by simpa [http_op_response_release_body] using hE, hl⟩⟩
    · simp [api_step, hd] at hstep
  | release_body_as_json decode =>
    by_cases hd : w.jockey.state = HTTP_OP_JOCKEY_DONE
    · simp only [api_step, hd, if_true, Option.some.injEq] at hstep
      subst hstep
      obtain ⟨E, hE, hl⟩ := hinv.envelope_installed (Or.inr hd)
      refine ⟨fun h => by simp [hd] at h, fun _ => ⟨E, ?_, ?_⟩⟩
      · cases hb : w.jockey.response.body <;>
          simpa [http_op_response_release_body_as_json, hb] using hE
      · cases hb : w.jockey.response.body <;>
          simpa [http_op_response_release_body_as_json, hb, last_envelope_append] using hl
    · simp [api_step, hd] at hstep

/-- Every sequence of calls of the consumer keeps the invariant. -/
theorem api_run_inv {cs : List api_call} {w w' : World} (hinv : jockey_inv w)
    (hrun : api_run cs w = some w') : jockey_inv w' := by
  induction cs generalizing w with
  | nil =>
    simp only [api_run, Option.some.injEq] at hrun
    subst hrun
    exact hinv
  | cons c cs ih =>
    simp only [api_run] at hrun
    cases hstep : api_step c w with
    | none => simp [hstep] at hrun
    | some w1 =>
      rw [hstep, Option.some_bind] at hrun
      exact ih (api_step_inv hinv hstep) hrun

/-- Every reachable jockey satisfies the invariant. -/
theorem reachable_inv {w : World} (h : reachable w) : jockey_inv w := by
  obtain ⟨async, op, m, s, cs, hrun⟩ := h
  exact api_run_inv (make_inv async op m s) hrun

/-- What a poll returns, read off the state it leaves. -/
theorem poll_result_spec {w w' : World} {r : Option http_op_response}
    (hp : http_op_jockey_receive_response w = some (r, w')) :
    r = (if w'.jockey.state = HTTP_OP_JOCKEY_DONE then some w'.jockey.response else none) ∧
      (w'.jockey.state = HTTP_OP_JOCKEY_FAILED → w'.errno = w'.jockey.error) := by
  have key : ∃ w1, (r, w') = receive_response_result w1 := by
    unfold http_op_jockey_receive_response at hp
    simp only [Option.map_eq_some'] at hp
    obtain ⟨w1, -, h⟩ := hp
    exact ⟨w1, h.symm⟩
  obtain ⟨w1, hw1⟩ := key
  obtain ⟨hj, -⟩ := receive_response_result_frame w1
  obtain ⟨h1, h2, -⟩ := receive_response_result_spec w1
  rw [← hw1] at hj h1 h2
  simp only at hj h1 h2
  rw [← hj] at h1 h2
  exact ⟨h1, h2⟩

/-- C6: the poll result is determined by the post-poll state.  A poll has no
result only on a jockey in ReadingBody whose accumulator is NULL, which no
reachable jockey is.  Whenever a poll has a result: a response is returned if
and only if the state after the call is Done, and it is the jockey's own
response; in Failed no response is returned and `errno` is the stored error;
in ReadingHeaders and ReadingBody no response is returned.  On a reachable
jockey every poll has a result, and a response returned is the jockey's own
and carries the envelope that `http_op_receive_response` returned when the
headers arrived. -/
theorem C6_result_determined_by_state (w : World) :
    (http_op_jockey_receive_response w = none ↔
      (w.jockey.state = HTTP_OP_JOCKEY_READING_BODY ∧ w.jockey.response.body = none)) ∧
    (∀ r w', http_op_jockey_receive_response w = some (r, w') →
      (r.isSome ↔ w'.jockey.state = HTTP_OP_JOCKEY_DONE) ∧
      (w'.jockey.state = HTTP_OP_JOCKEY_DONE → r = some w'.jockey.response) ∧
      (w'.jockey.state = HTTP_OP_JOCKEY_FAILED → r = none ∧ w'.errno = w'.jockey.error) ∧
      (w'.jockey.state = HTTP_OP_JOCKEY_READING_HEADERS ∨
        w'.jockey.state = HTTP_OP_JOCKEY_READING_BODY → r = none)) ∧
    (reachable w →
      ∃ r w', http_op_jockey_receive_response w = some (r, w') ∧
        (w'.jockey.state = HTTP_OP_JOCKEY_DONE →
          r = some w'.jockey.response ∧
          ∃ E, w'.jockey.response.envelope = some E ∧ last_envelope w'.log = some E)) := by
  refine ⟨?_, ?_, ?_⟩
  · unfold http_op_jockey_receive_response
    cases hs : w.jockey.state <;> simp [probe_body]
    cases hb : w.jockey.response.body <;> simp
  · intro r w' hp
    obtain ⟨h1, h2⟩ := poll_result_spec hp
    refine ⟨?_, ?_, ?_, ?_⟩
    · rw [h1]
      by_cases hd : w'.jockey.state = HTTP_OP_JOCKEY_DONE <;> simp [hd]
    · intro hd
      rw [h1, if_pos hd]
    · intro hf
      exact ⟨by rw [h1, if_neg (by rw [hf]; decide)], h2 hf⟩
    · intro hr
      rw [h1, if_neg (by rcases hr with hr | hr <;> rw [hr] <;> decide)]
  · intro hreach
    obtain ⟨r, w', hp, hinv'⟩ := poll_inv (reachable_inv hreach)
    refine ⟨r, w', hp, fun hd => ⟨?_, hinv'.envelope_installed (Or.inr hd)⟩⟩
    rw [(poll_result_spec hp).1, if_pos hd]

/-! ### The theorems at concrete inputs -/

/-- C1 at a concrete input: capacity 3, the stream delivers two bytes, asks to
try again, delivers a third byte and ends. -/
theorem C1_witness_three_bytes_cap_three :
    well_behaved [.bytes [1, 2], .fail EAGAIN, .bytes [3]] ∧
      (delivered [.bytes [1, 2], .fail EAGAIN, .bytes [3]]).length ≤ 3 ∧
      ∃ k wd, polls k (sample_body_world 3 [.bytes [1, 2], .fail EAGAIN, .bytes [3]]) = some wd ∧
        wd.jockey.state = HTTP_OP_JOCKEY_DONE ∧
        wd.jockey.response.body = some { max_size := 3, data := [1, 2, 3] } := by
  have hwb : well_behaved [.bytes [1, 2], .fail EAGAIN, .bytes [3]] := by
    simp [well_behaved]
  have hcap : (delivered [.bytes [1, 2], .fail EAGAIN, .bytes [3]]).length ≤ 3 := by decide
  obtain ⟨k, wk, wd, -, -, -, -, -, -, hlater, -⟩ :=
    C1_body_within_cap_buffered_exactly
      (sample_body_world 3 [.bytes [1, 2], .fail EAGAIN, .bytes [3]]) 3 3 _
      rfl rfl rfl rfl hwb hcap
  obtain ⟨wj, h1, h2, h3⟩ := hlater (k + 1) (by omega)
  exact ⟨hwb, hcap, k + 1, wj, h1, h2, h3⟩

/-- C2 at a concrete input: capacity 2, the stream delivers two bytes, asks
to try again, delivers a third byte and ends. -/
theorem C2_witness_three_bytes_cap_two :
    well_behaved [.bytes [1, 2], .fail EAGAIN, .bytes [3]] ∧
      2 < (delivered [.bytes [1, 2], .fail EAGAIN, .bytes [3]]).length ∧
      ∃ k wf, polls k (sample_body_world 2 [.bytes [1, 2], .fail EAGAIN, .bytes [3]]) = some wf ∧
        wf.jockey.state = HTTP_OP_JOCKEY_FAILED ∧ wf.jockey.error = EMSGSIZE := by
  have hwb : well_behaved [.bytes [1, 2], .fail EAGAIN, .bytes [3]] := by
    simp [well_behaved]
  have hover : 2 < (delivered [.bytes [1, 2], .fail EAGAIN, .bytes [3]]).length := by decide
  obtain ⟨k, wk, wf, -, -, -, -, -, -, hlater, -⟩ :=
    C2_oversize_body_fails_EMSGSIZE
      (sample_body_world 2 [.bytes [1, 2], .fail EAGAIN, .bytes [3]]) 3 2 _
      rfl rfl rfl rfl hwb hover
  obtain ⟨wj, h1, h2, h3⟩ := hlater (k + 1) (by omega)
  exact ⟨hwb, hover, k + 1, wj, h1, h2, h3⟩

/-- C3 at concrete inputs: a fresh jockey whose operation asks to try again; a
jockey in the body phase whose stream asks to try again; and a jockey with a
full accumulator (capacity 0) whose stream asks to try again at the lookahead. -/
theorem C3_witness_try_again :
    (∃ w', http_op_jockey_receive_response
        (sample_headers_world [⟨none, EAGAIN⟩] (.ok (.stream 3))) = some (none, w') ∧
      w'.errno = EAGAIN ∧
      w'.jockey = (sample_headers_world [⟨none, EAGAIN⟩] (.ok (.stream 3))).jockey ∧
      scheduled w'.log =
        scheduled (sample_headers_world [⟨none, EAGAIN⟩] (.ok (.stream 3))).log) ∧
    (∃ w', http_op_jockey_receive_response (sample_body_world 3 [.fail EAGAIN]) =
        some (none, w') ∧
      w'.errno = EAGAIN ∧ w'.jockey = (sample_body_world 3 [.fail EAGAIN]).jockey ∧
      scheduled w'.log = scheduled (sample_body_world 3 [.fail EAGAIN]).log) ∧
    (∃ w', http_op_jockey_receive_response (sample_body_world 0 [.fail EAGAIN]) =
        some (none, w') ∧
      w'.errno = EAGAIN ∧ w'.jockey = (sample_body_world 0 [.fail EAGAIN]).jockey ∧
      scheduled w'.log = scheduled (sample_body_world 0 [.fail EAGAIN]).log) :=
  ⟨C3_try_again_changes_nothing _ (Or.inl ⟨rfl, rfl, rfl⟩),
    C3_try_again_changes_nothing _
      (Or.inr ⟨rfl, make_byte_array 3, rfl, by decide, Or.inl rfl⟩),
    C3_try_again_changes_nothing _
      (Or.inr ⟨rfl, make_byte_array 0, rfl, by decide, Or.inr ⟨rfl, by decide, rfl⟩⟩)⟩

/-- C4 at concrete inputs: the peer closed without responding (`errno` 0), and
a genuine error (`errno` 5). -/
theorem C4_witness_header_failures :
    (∃ w', http_op_jockey_receive_response
        (sample_headers_world [⟨none, 0⟩] (.ok (.stream 3))) = some (none, w') ∧
      w'.jockey.state = HTTP_OP_JOCKEY_FAILED ∧ w'.jockey.error = 0 ∧ w'.errno = 0 ∧
      w'.jockey.content = drystream) ∧
    (∃ w', http_op_jockey_receive_response
        (sample_headers_world [⟨none, 5⟩] (.ok (.stream 3))) = some (none, w') ∧
      w'.jockey.state = HTTP_OP_JOCKEY_FAILED ∧ w'.jockey.error = 5 ∧ w'.errno = 5 ∧
      w'.jockey.content = drystream) := by
  obtain ⟨w1, h1, h2, h3, h4, -, h5, -, -⟩ := C4_header_failure_terminal
    (sample_headers_world [⟨none, 0⟩] (.ok (.stream 3))) 0 rfl rfl rfl (by decide)
  obtain ⟨w2, g1, g2, g3, g4, -, g5, -, -⟩ := C4_header_failure_terminal
    (sample_headers_world [⟨none, 5⟩] (.ok (.stream 3))) 5 rfl rfl rfl (by decide)
  exact ⟨⟨w1, h1, h2, h3, h4, h5 rfl⟩, ⟨w2, g1, g2, g3, g4, g5 rfl⟩⟩

/-- C5 at a concrete input: the operation delivers envelope 7 and hands out
stream 3 to a jockey on which the callback 9 was registered. -/
theorem C5_witness_headers_arrive :
    ∃ w', http_op_jockey_receive_response
        (http_op_jockey_register_callback 9
          (sample_headers_world [⟨some 7, 0⟩] (.ok (.stream 3)))) = some (none, w') ∧
      w'.errno = EAGAIN ∧
      w'.jockey.state = HTTP_OP_JOCKEY_READING_BODY ∧
      w'.jockey.response.envelope = some 7 ∧
      w'.jockey.content = .stream 3 ∧
      (w'.streams 3).callback = 9 ∧
      scheduled w'.log = [.async_execute 1 9] := by
  obtain ⟨w', h1, h2, h3, h4, h5, -, -, -, h6, -, -, h7⟩ := C5_successful_header_arrival
    (http_op_jockey_register_callback 9
      (sample_headers_world [⟨some 7, 0⟩] (.ok (.stream 3)))) 7 (.stream 3) rfl rfl rfl
  exact ⟨w', h1, h2, h3, h4, h5, h6 3 rfl, h7⟩

/-- C7 at concrete inputs: a jockey put in Done, in Failed with error 5, and a
closed jockey. -/
theorem C7_witness_terminal_polls :
    (∃ w', http_op_jockey_receive_response
        (set_state HTTP_OP_JOCKEY_DONE (sample_body_world 3 [])) =
          some (some { envelope := some 7, body := some (make_byte_array 3) }, w') ∧
      http_op_jockey_receive_response w' =
          some (some { envelope := some 7, body := some (make_byte_array 3) }, w')) ∧
    (∃ w', http_op_jockey_receive_response
        (set_state HTTP_OP_JOCKEY_FAILED (set_error 5 (sample_body_world 3 []))) =
          some (none, w') ∧ w'.errno = 5 ∧
      http_op_jockey_receive_response w' = some (none, w')) ∧
    (∃ w', http_op_jockey_receive_response
        (http_op_jockey_close (sample_body_world 3 [])) = some (none, w') ∧
      w'.errno = EINVAL ∧ http_op_jockey_receive_response w' = some (none, w')) := by
  obtain ⟨r1, w1, h1, -, -, -, -, -, hd, -, -, hi⟩ := C7_terminal_poll_idempotent
    (set_state HTTP_OP_JOCKEY_DONE (sample_body_world 3 [])) (Or.inl rfl)
  obtain ⟨r2, w2, g1, -, -, -, -, -, -, hf, -, gi⟩ := C7_terminal_poll_idempotent
    (set_state HTTP_OP_JOCKEY_FAILED (set_error 5 (sample_body_world 3 [])))
    (Or.inr (Or.inl rfl))
  obtain ⟨r3, w3, k1, -, -, -, -, -, -, -, hz, ki⟩ := C7_terminal_poll_idempotent
    (http_op_jockey_close (sample_body_world 3 [])) (Or.inr (Or.inr rfl))
  obtain ⟨hr1, -⟩ := hd rfl
  obtain ⟨hr2, he2⟩ := hf rfl
  obtain ⟨hr3, he3⟩ := hz rfl
  subst hr1 hr2 hr3
  exact ⟨⟨w1, h1, hi⟩, ⟨w2, g1, he2, gi⟩, ⟨w3, k1, he3, ki⟩⟩

/-- C6 at a concrete input: a jockey made on a system whose stream delivers
one byte, polled three times (try-again, headers, one byte); the fourth poll
returns the response with envelope 7, the one the operation returned. -/
theorem C6_witness_reachable_done :
    ∃ w, api_run [.receive_response, .receive_response, .receive_response]
        (make_http_op_jockey 1 2 10 (sample_sys [.bytes [1]])) = some w ∧
      ∃ r w', http_op_jockey_receive_response w = some (r, w') ∧
        w'.jockey.state = HTTP_OP_JOCKEY_DONE ∧
        r = some w'.jockey.response ∧
        w'.jockey.response.envelope = some 7 ∧ last_envelope w'.log = some 7 := by
  obtain ⟨w, hrun, hphase, henv⟩ : ∃ w,
      api_run [.receive_response, .receive_response, .receive_response]
        (make_http_op_jockey 1 2 10 (sample_sys [.bytes [1]])) = some w ∧
      body_phase w 3 10 [1] [] ∧ w.jockey.response.envelope = some 7 :=
    ⟨_, rfl, ⟨rfl, rfl, rfl, rfl⟩, rfl⟩
  obtain ⟨r, w', hp, h⟩ := (C6_result_determined_by_state w).2.2
    ⟨1, 2, 10, sample_sys [.bytes [1]],
      [.receive_response, .receive_response, .receive_response], hrun⟩
  obtain ⟨w'', hp', hdone, hresp⟩ := poll_body_eof hphase
  rw [hp] at hp'
  simp only [Option.some.injEq, Prod.mk.injEq] at hp'
  obtain ⟨-, hw⟩ := hp'
  subst hw
  obtain ⟨hr, E, hE, hl⟩ := h hdone
  have hE7 : w'.jockey.response.envelope = some 7 := by rw [hresp]; exact henv
  rw [hE7] at hE
  cases hE
  exact ⟨w, hrun, r, w', hp, hdone, hr, hE7, hl⟩

/-! ### Registration, transitions, closed jockeys -/

/-- C11: callback registration is a single mirrored slot.  After
`http_op_jockey_register_callback` with `a` the stored callback and the
operation's slot hold `a`, the registration call on the current content
stream was made with `a` (and its slot holds `a`, when the stream is not the
slot-less placeholder), and nothing else in the jockey changed; registering
`b` afterwards puts `b` in all three, so none holds `a` unless `a` is `b`;
`http_op_jockey_unregister_callback` empties all three and changes nothing
else in the jockey. -/
theorem C11_registration_single_mirrored_slot (w : World) (a b : action_1) :
    ((http_op_jockey_register_callback a w).jockey = { w.jockey with callback := a } ∧
      (http_op_jockey_register_callback a w).op.callback = a ∧
      (∀ i, w.jockey.content = .stream i →
        ((http_op_jockey_register_callback a w).streams i).callback = a) ∧
      (http_op_jockey_register_callback a w).log = w.log ++
        [.http_op_register_callback w.jockey.op a,
         .bytestream_1_register_callback w.jockey.content a]) ∧
    ((http_op_jockey_register_callback b (http_op_jockey_register_callback a w)).jockey =
        { w.jockey with callback := b } ∧
      (http_op_jockey_register_callback b (http_op_jockey_register_callback a w)).op.callback
        = b ∧
      (∀ i, w.jockey.content = .stream i →
        ((http_op_jockey_register_callback b
          (http_op_jockey_register_callback a w)).streams i).callback = b) ∧
      (a ≠ b →
        (http_op_jockey_register_callback b
          (http_op_jockey_register_callback a w)).jockey.callback ≠ a ∧
        (http_op_jockey_register_callback b
          (http_op_jockey_register_callback a w)).op.callback ≠ a ∧
        ∀ i, w.jockey.content = .stream i →
          ((http_op_jockey_register_callback b
            (http_op_jockey_register_callback a w)).streams i).callback ≠ a)) ∧
    ((http_op_jockey_unregister_callback w).jockey =
        { w.jockey with callback := NULL_ACTION_1 } ∧
      (http_op_jockey_unregister_callback w).op.callback = NULL_ACTION_1 ∧
      (∀ i, w.jockey.content = .stream i →
        ((http_op_jockey_unregister_callback w).streams i).callback = NULL_ACTION_1) ∧
      (http_op_jockey_unregister_callback w).log = w.log ++
        [.http_op_unregister_callback w.jockey.op,
         .bytestream_1_unregister_callback w.jockey.content]) := by
  rcases w with ⟨⟨errno, op, streams, nuid, log⟩,
    ⟨async, opn, uid, state, error, content, ⟨envelope, body⟩, callback⟩⟩
  cases content <;>
    simp [http_op_jockey_register_callback, http_op_register_callback,
      bytestream_1_register_callback, http_op_jockey_unregister_callback,
      http_op_unregister_callback, bytestream_1_unregister_callback, emit, put_stream]
  all_goals
    intro hab h
    exact hab h.symm

/-- What `probe_headers` leaves alone: the stored error unless it fails, the
content stream unless it moves on to ReadingBody. -/
theorem probe_headers_frame (w : World)
    (hs : w.jockey.state = HTTP_OP_JOCKEY_READING_HEADERS) :
    ((probe_headers w).jockey.error = w.jockey.error ∨
        (probe_headers w).jockey.state = HTTP_OP_JOCKEY_FAILED) ∧
      ((probe_headers w).jockey.content = w.jockey.content ∨
        (probe_headers w).jockey.state = HTTP_OP_JOCKEY_READING_BODY) ∧
      (probe_headers w).op.content = w.op.content := by
  rcases w with ⟨⟨errno, ⟨responses, content, opcb, closed⟩, streams, nuid, log⟩,
    ⟨async, opn, uid, state, error, jcontent, ⟨envelope, body⟩, callback⟩⟩
  simp only at hs
  subst hs
  cases responses with
  | nil => simp [probe_headers, http_op_receive_response, emit, set_state, set_error]
  | cons o rest =>
    obtain ⟨ret, err⟩ := o
    cases ret with
    | none =>
      by_cases h0 : err = 0
      · simp [probe_headers, http_op_receive_response, emit, set_state, set_error, h0]
      · by_cases h1 : err = EAGAIN
        · subst h1
          simp [probe_headers, http_op_receive_response, emit, set_state, set_error,
            EAGAIN_ne_zero]
        · simp [probe_headers, http_op_receive_response, emit, set_state, set_error, h0, h1]
    | some E =>
      cases content with
      | fail e =>
        simp [probe_headers, http_op_receive_response, emit, set_state, set_error,
          http_op_get_response_content]
      | ok S =>
        cases S <;>
          simp [probe_headers, http_op_receive_response, emit, set_state, set_error,
            http_op_get_response_content, bytestream_1_register_callback, async_execute,
            put_stream]

/-- The (state before, state after) pairs of one poll.  A poll has no result
only in ReadingBody with a NULL accumulator. -/
theorem poll_transition (w : World) :
    (http_op_jockey_receive_response w = none ∧
        w.jockey.state = HTTP_OP_JOCKEY_READING_BODY ∧ w.jockey.response.body = none) ∨
    ∃ r w', http_op_jockey_receive_response w = some (r, w') ∧
      ((w.jockey.state = HTTP_OP_JOCKEY_READING_HEADERS ∧
          (w'.jockey.state = HTTP_OP_JOCKEY_READING_HEADERS ∨
           w'.jockey.state = HTTP_OP_JOCKEY_READING_BODY ∨
           w'.jockey.state = HTTP_OP_JOCKEY_FAILED)) ∨
       (w.jockey.state = HTTP_OP_JOCKEY_READING_BODY ∧
          (w'.jockey.state = HTTP_OP_JOCKEY_READING_BODY ∨
           w'.jockey.state = HTTP_OP_JOCKEY_DONE ∨
           w'.jockey.state = HTTP_OP_JOCKEY_FAILED)) ∨
       (w.jockey.state = HTTP_OP_JOCKEY_DONE ∧ w'.jockey.state = HTTP_OP_JOCKEY_DONE) ∨
       (w.jockey.state = HTTP_OP_JOCKEY_FAILED ∧ w'.jockey.state = HTTP_OP_JOCKEY_FAILED) ∨
       (w.jockey.state = HTTP_OP_JOCKEY_ZOMBIE ∧ w'.jockey.state = HTTP_OP_JOCKEY_ZOMBIE)) := by
  by_cases hterm : terminal w.jockey.state
  · obtain ⟨r, w', hp, hj, -⟩ := poll_terminal hterm
    refine Or.inr ⟨r, w', hp, ?_⟩
    rw [hj]
    rcases hterm with h | h | h <;> simp [h]
  · have hread : w.jockey.state = HTTP_OP_JOCKEY_READING_HEADERS ∨
        w.jockey.state = HTTP_OP_JOCKEY_READING_BODY := by
      unfold terminal at hterm
      cases hst : w.jockey.state <;> simp_all
    rcases hread with hs | hs
    · refine Or.inr ⟨(receive_response_result (probe_headers w)).1,
        (receive_response_result (probe_headers w)).2, poll_reading_headers hs, Or.inl ⟨hs, ?_⟩⟩
      rw [(receive_response_result_frame (probe_headers w)).1]
      rcases (probe_headers_cases w hs).2 with h | h | ⟨h, -⟩
      · exact Or.inl h
      · exact Or.inr (Or.inr h)
      · exact Or.inr (Or.inl h)
    · cases hb : w.jockey.response.body with
      | none =>
        refine Or.inl ⟨?_, hs, rfl⟩
        simp [poll_reading_body hs, probe_body, hb]
      | some body =>
        have haj := byte_array_append_stream_jockey body w.jockey.content 2048 w
        right
        rw [poll_reading_body hs, probe_body_eq hb]
        generalize byte_array_append_stream body w.jockey.content 2048 w = a at haj
        refine ⟨(receive_response_result
            (probe_body_lookahead a.count (store_body a.array a.world))).1,
          (receive_response_result
            (probe_body_lookahead a.count (store_body a.array a.world))).2, rfl,
          Or.inr (Or.inl ⟨hs, ?_⟩)⟩
        rw [(receive_response_result_frame _).1]
        obtain ⟨-, -, h3⟩ := probe_body_lookahead_frame a.count (store_body a.array a.world)
        have hst : (store_body a.array a.world).jockey.state =
            HTTP_OP_JOCKEY_READING_BODY := by
          simp only [store_body, haj, hs]
        rw [hst] at h3
        exact h3

/-- C13: polls follow the transition table and skip nothing.  Every poll that
has a result (all do, except in ReadingBody with a NULL accumulator) takes
the state along one of ReadingHeaders to ReadingHeaders, ReadingBody or
Failed; ReadingBody to ReadingBody, Done or Failed; Done to Done; Failed to
Failed; Zombie to Zombie.  So no poll takes ReadingHeaders to Done, none
returns to ReadingHeaders from another state, and none produces Zombie from
another state. -/
theorem C13_polls_follow_transition_table (w : World) :
    (http_op_jockey_receive_response w = none ∧
        w.jockey.state = HTTP_OP_JOCKEY_READING_BODY ∧ w.jockey.response.body = none) ∨
    ∃ r w', http_op_jockey_receive_response w = some (r, w') ∧
      ((w.jockey.state = HTTP_OP_JOCKEY_READING_HEADERS ∧
          (w'.jockey.state = HTTP_OP_JOCKEY_READING_HEADERS ∨
           w'.jockey.state = HTTP_OP_JOCKEY_READING_BODY ∨
           w'.jockey.state = HTTP_OP_JOCKEY_FAILED)) ∨
       (w.jockey.state = HTTP_OP_JOCKEY_READING_BODY ∧
          (w'.jockey.state = HTTP_OP_JOCKEY_READING_BODY ∨
           w'.jockey.state = HTTP_OP_JOCKEY_DONE ∨
           w'.jockey.state = HTTP_OP_JOCKEY_FAILED)) ∨
       (w.jockey.state = HTTP_OP_JOCKEY_DONE ∧ w'.jockey.state = HTTP_OP_JOCKEY_DONE) ∨
       (w.jockey.state = HTTP_OP_JOCKEY_FAILED ∧ w'.jockey.state = HTTP_OP_JOCKEY_FAILED) ∨
       (w.jockey.state = HTTP_OP_JOCKEY_ZOMBIE ∧ w'.jockey.state = HTTP_OP_JOCKEY_ZOMBIE)) ∧
      ¬ (w.jockey.state = HTTP_OP_JOCKEY_READING_HEADERS ∧
          w'.jockey.state = HTTP_OP_JOCKEY_DONE) ∧
      (w'.jockey.state = HTTP_OP_JOCKEY_READING_HEADERS →
        w.jockey.state = HTTP_OP_JOCKEY_READING_HEADERS) ∧
      (w'.jockey.state = HTTP_OP_JOCKEY_ZOMBIE → w.jockey.state = HTTP_OP_JOCKEY_ZOMBIE) := by
  rcases poll_transition w with h | ⟨r, w', hp, ht⟩
  · exact Or.inl h
  · refine Or.inr ⟨r, w', hp, ht, ?_, ?_, ?_⟩
    · rintro ⟨h1, h2⟩
      rw [h1, h2] at ht
      simp at ht
    · intro h
      rw [h] at ht
      rcases ht with ⟨h1, -⟩ | ⟨-, h2⟩ | ⟨-, h2⟩ | ⟨-, h2⟩ | ⟨-, h2⟩
      · exact h1
      all_goals simp at h2
    · intro h
      rw [h] at ht
      rcases ht with ⟨-, h2⟩ | ⟨-, h2⟩ | ⟨-, h2⟩ | ⟨-, h2⟩ | ⟨h1, -⟩
      · simp at h2
      · simp at h2
      · simp at h2
      · simp at h2
      · exact h1

/-- C20: polling a closed jockey is an `EINVAL` failure.  In Zombie, whatever
the stored error, a poll returns no response and writes `EINVAL` to `errno`
and nothing else: jockey, operation, streams and the log of calls are as
before, so no call is made.  This is the state `http_op_jockey_close` leaves. -/
theorem C20_poll_closed_jockey_EINVAL (w : World) :
    (w.jockey.state = HTTP_OP_JOCKEY_ZOMBIE →
      http_op_jockey_receive_response w = some (none, { w with errno := EINVAL })) ∧
    http_op_jockey_receive_response (http_op_jockey_close w) =
      some (none, { http_op_jockey_close w with errno := EINVAL }) ∧
    (http_op_jockey_close w).jockey.state = HTTP_OP_JOCKEY_ZOMBIE := by
  have hz : ∀ v : World, v.jockey.state = HTTP_OP_JOCKEY_ZOMBIE →
      http_op_jockey_receive_response v = some (none, { v with errno := EINVAL }) := by
    intro v hv
    simp [http_op_jockey_receive_response, receive_response_result, hv]
  have hc : (http_op_jockey_close w).jockey.state = HTTP_OP_JOCKEY_ZOMBIE := by
    cases hb : w.jockey.response.body <;> simp [http_op_jockey_close, hb, emit,
      bytestream_1_close, http_op_close, async_wound]
  exact ⟨hz w, hz _ hc, hc⟩

/-! ### The body phase in detail -/

@[simp] theorem reads_append (l₁ l₂ : List Event) :
    reads (l₁ ++ l₂) = reads l₁ ++ reads l₂ := by
  simp [reads]

/-- A read adds exactly one event to the log: itself, with the count it returned. -/
theorem bytestream_1_read_log (s : bytestream_1) (n : Nat) (w : World) :
    (bytestream_1_read s n w).world.log =
      w.log ++ [.bytestream_1_read s n (bytestream_1_read s n w).count] := by
  unfold bytestream_1_read
  cases s with
  | drystream => rfl
  | stream i =>
    simp only
    split <;> rfl

/-- A full accumulator is not read into: the append makes no read. -/
theorem byte_array_append_stream_full {array : byte_array_t} (s : bytestream_1) (len : Nat)
    (w : World) (h : array.max_size ≤ array.data.length) :
    (byte_array_append_stream array s len w).count < 0 ∧
      (byte_array_append_stream array s len w).world.errno = ENOSPC ∧
      reads (byte_array_append_stream array s len w).world.log = reads w.log := by
  simp [byte_array_append_stream, h, emit, reads]

theorem probe_body_outcome_reads (count : Int) (w : World) :
    reads (probe_body_outcome count w).log = reads w.log := by
  unfold probe_body_outcome
  split
  · split <;> simp [set_state, set_error, emit, reads]
  · split <;> simp [set_state, async_execute, emit, reads]

theorem probe_body_outcome_scheduled {count : Int} (w : World) (h : ¬ 0 < count) :
    scheduled (probe_body_outcome count w).log = scheduled w.log := by
  unfold probe_body_outcome
  split
  · split <;> simp [set_state, set_error, emit, scheduled]
  · split
    · simp [set_state, emit, scheduled]
    · omega

theorem probe_body_lookahead_scheduled {count : Int} (w : World) (h : ¬ 0 < count) :
    scheduled (probe_body_lookahead count w).log = scheduled w.log := by
  have hr := bytestream_1_read_scheduled w.jockey.content 1 w
  unfold probe_body_lookahead
  split
  · simp only
    split
    · simp only [set_state, set_error, emit, scheduled_append, hr]
      simp [scheduled]
    · rename_i hnp
      rw [probe_body_outcome_scheduled _ hnp, hr]
  · exact probe_body_outcome_scheduled w h

theorem probe_body_lookahead_pos {count : Int} (w : World) (h : 0 < count) :
    probe_body_lookahead count w =
      { async_execute w.jockey.callback w with errno := EAGAIN } := by
  have h1 : ¬ count < 0 := by omega
  have h2 : ¬ count = 0 := by omega
  simp [probe_body_lookahead, probe_body_outcome, h1, h2]

/-- C15: body-phase rescheduling.  In ReadingBody, a poll whose append returns
a positive count stays in ReadingBody, schedules exactly one invocation of
the stored callback and returns no response with `errno` = `EAGAIN`; a poll
whose append returns anything else (0, or a negative count with any `errno`,
whatever the lookahead then finds) schedules nothing. -/
theorem C15_body_phase_rescheduling (w : World) (body : byte_array_t)
    (hs : w.jockey.state = HTTP_OP_JOCKEY_READING_BODY)
    (hb : w.jockey.response.body = some body) :
    (0 < (byte_array_append_stream body w.jockey.content 2048 w).count →
      ∃ w', http_op_jockey_receive_response w = some (none, w') ∧
        w'.jockey.state = HTTP_OP_JOCKEY_READING_BODY ∧ w'.errno = EAGAIN ∧
        w'.jockey.callback = w.jockey.callback ∧
        scheduled w'.log =
          scheduled w.log ++ [.async_execute w.jockey.async w.jockey.callback]) ∧
    (¬ 0 < (byte_array_append_stream body w.jockey.content 2048 w).count →
      ∃ r w', http_op_jockey_receive_response w = some (r, w') ∧
        scheduled w'.log = scheduled w.log) := by
  have hj := byte_array_append_stream_jockey body w.jockey.content 2048 w
  have hsch := byte_array_append_stream_scheduled body w.jockey.content 2048 w
  rw [poll_reading_body hs, probe_body_eq hb]
  generalize byte_array_append_stream body w.jockey.content 2048 w = a at hj hsch
  constructor
  · intro hpos
    rw [probe_body_lookahead_pos _ hpos]
    have hst : ({ async_execute (store_body a.array a.world).jockey.callback
        (store_body a.array a.world) with errno := EAGAIN } : World).jockey.state =
        HTTP_OP_JOCKEY_READING_BODY := by
      simp only [async_execute, emit, store_body, hj, hs]
    refine ⟨_, by rw [Option.map_some', receive_response_result_reading (Or.inr hst)],
      hst, rfl, ?_, ?_⟩
    · simp only [async_execute, emit, store_body, hj]
    · simp only [async_execute, emit, store_body, hj, scheduled_append, hsch]
      simp [scheduled]
  · intro hnp
    refine ⟨(receive_response_result
        (probe_body_lookahead a.count (store_body a.array a.world))).1,
      (receive_response_result
        (probe_body_lookahead a.count (store_body a.array a.world))).2, rfl, ?_⟩
    rw [(receive_response_result_frame _).2, probe_body_lookahead_scheduled _ hnp]
    simp only [store_body, hsch]

/-- The result switch on a world in Done. -/
theorem receive_response_result_done {w : World}
    (h : w.jockey.state = HTTP_OP_JOCKEY_DONE) :
    receive_response_result w = (some w.jockey.response, w) := by
  unfold receive_response_result
  rw [h]

/-- C14: the lookahead outcome replaces the append outcome.  In ReadingBody,
when the append fails with `ENOSPC`, the poll makes exactly one more read, of
1 byte, on the content stream (the only read of the poll when the
accumulator is full), the buffered body stays as it is, and: a lookahead
count of 0 gives Done and returns the response; a negative count with
`EAGAIN` leaves ReadingBody and returns no response with `errno` =
`EAGAIN`; a negative count with another `errno` gives Failed with that
`errno` stored; a positive count gives Failed with `EMSGSIZE`.  When the
append does not fail with `ENOSPC`, the poll makes no read after the append. -/
theorem C14_lookahead_replaces_append_outcome (w : World) (body : byte_array_t)
    (hs : w.jockey.state = HTTP_OP_JOCKEY_READING_BODY)
    (hb : w.jockey.response.body = some body) :
    ((byte_array_append_stream body w.jockey.content 2048 w).count < 0 ∧
        (byte_array_append_stream body w.jockey.content 2048 w).world.errno = ENOSPC →
      ∃ res w', http_op_jockey_receive_response w = some (res, w') ∧
        reads w'.log =
          reads (byte_array_append_stream body w.jockey.content 2048 w).world.log ++
            [.bytestream_1_read w.jockey.content 1
              (bytestream_1_read w.jockey.content 1
                (byte_array_append_stream body w.jockey.content 2048 w).world).count] ∧
        w'.jockey.response.body = w.jockey.response.body ∧
        ((bytestream_1_read w.jockey.content 1
            (byte_array_append_stream body w.jockey.content 2048 w).world).count = 0 →
          w'.jockey.state = HTTP_OP_JOCKEY_DONE ∧ res = some w'.jockey.response) ∧
        ((bytestream_1_read w.jockey.content 1
            (byte_array_append_stream body w.jockey.content 2048 w).world).count < 0 →
          (bytestream_1_read w.jockey.content 1
            (byte_array_append_stream body w.jockey.content 2048 w).world).world.errno
            = EAGAIN →
          w'.jockey.state = HTTP_OP_JOCKEY_READING_BODY ∧ res = none ∧ w'.errno = EAGAIN) ∧
        ((bytestream_1_read w.jockey.content 1
            (byte_array_append_stream body w.jockey.content 2048 w).world).count < 0 →
          (bytestream_1_read w.jockey.content 1
            (byte_array_append_stream body w.jockey.content 2048 w).world).world.errno
            ≠ EAGAIN →
          w'.jockey.state = HTTP_OP_JOCKEY_FAILED ∧ res = none ∧
          w'.jockey.error = (bytestream_1_read w.jockey.content 1
            (byte_array_append_stream body w.jockey.content 2048 w).world).world.errno ∧
          w'.errno = w'.jockey.error) ∧
        (0 < (bytestream_1_read w.jockey.content 1
            (byte_array_append_stream body w.jockey.content 2048 w).world).count →
          w'.jockey.state = HTTP_OP_JOCKEY_FAILED ∧ res = none ∧
          w'.jockey.error = EMSGSIZE ∧ w'.errno = EMSGSIZE)) ∧
    (body.max_size ≤ body.data.length →
      (byte_array_append_stream body w.jockey.content 2048 w).count < 0 ∧
      (byte_array_append_stream body w.jockey.content 2048 w).world.errno = ENOSPC ∧
      reads (byte_array_append_stream body w.jockey.content 2048 w).world.log = reads w.log) ∧
    (¬ ((byte_array_append_stream body w.jockey.content 2048 w).count < 0 ∧
        (byte_array_append_stream body w.jockey.content 2048 w).world.errno = ENOSPC) →
      ∃ res w', http_op_jockey_receive_response w = some (res, w') ∧
        reads w'.log =
          reads (byte_array_append_stream body w.jockey.content 2048 w).world.log) := by
  have hj := byte_array_append_stream_jockey body w.jockey.content 2048 w
  refine ⟨?_, byte_array_append_stream_full _ _ _, ?_⟩
  · rintro ⟨hneg, herr⟩
    have harr := byte_array_append_stream_array_of_neg hneg
    rw [poll_reading_body hs, probe_body_eq hb]
    generalize byte_array_append_stream body w.jockey.content 2048 w = a at hj harr hneg herr
    have hbody : a.world.jockey.response.body = some a.array := by rw [hj, harr, hb]
    rw [store_body_same _ _ hbody]
    have hj2 := bytestream_1_read_jockey w.jockey.content 1 a.world
    have hlog := bytestream_1_read_log w.jockey.content 1 a.world
    simp only [probe_body_lookahead, hneg, herr, and_self, if_true, hj]
    generalize bytestream_1_read w.jockey.content 1 a.world = r at hj2 hlog
    have hbody2 : r.world.jockey.response.body = w.jockey.response.body := by rw [hj2, hj]
    rcases lt_trichotomy r.count 0 with hc | hc | hc
    · have hnp : ¬ 0 < r.count := by omega
      by_cases he : r.world.errno = EAGAIN
      · have hst : r.world.jockey.state = HTTP_OP_JOCKEY_READING_BODY := by rw [hj2, hj, hs]
        refine ⟨none, r.world, ?_, by rw [hlog]; simp [reads], hbody2,
          fun h0 => absurd h0 (by omega), fun _ _ => ⟨hst, rfl, he⟩,
          fun _ hne => absurd he hne, fun hp => absurd hp hnp⟩
        simp only [hnp, if_false, probe_body_outcome_again hc he, Option.map_some',
          receive_response_result_reading (Or.inr hst)]
      · have hX : probe_body_outcome r.count r.world = set_state HTTP_OP_JOCKEY_FAILED
            (set_error r.world.errno
              (emit (.FSTRACE_READ_CONTENT_FAIL r.world.jockey.uid) r.world)) := by
          simp [probe_body_outcome, hc, he, emit]
        refine ⟨none, _, by
            simp only [hnp, if_false, hX, Option.map_some']
            rw [receive_response_result_failed rfl], ?_, ?_,
          fun h0 => absurd h0 (by omega), fun _ h => absurd h he,
          fun _ _ => ⟨rfl, rfl, rfl, rfl⟩, fun hp => absurd hp hnp⟩
        · simp [set_state, set_error, emit, hlog, reads]
        · simpa [set_state, set_error, emit] using hbody2
    · have hnp : ¬ 0 < r.count := by omega
      have hX : probe_body_outcome r.count r.world =
          set_state HTTP_OP_JOCKEY_DONE r.world := by
        simp [probe_body_outcome, hc]
      refine ⟨some (set_state HTTP_OP_JOCKEY_DONE r.world).jockey.response, _, by
          simp only [hnp, if_false, hX, Option.map_some']
          rw [receive_response_result_done rfl], ?_, ?_,
        fun _ => ⟨rfl, rfl⟩, fun h => absurd h (by omega), fun h => absurd h (by omega),
        fun hp => absurd hp hnp⟩
      · simp [set_state, emit, hlog, reads]
      · simpa [set_state, emit] using hbody2
    · refine ⟨none, _, by
          simp only [hc, if_true, Option.map_some']
          rw [receive_response_result_failed rfl], ?_, ?_,
        fun h0 => absurd h0 (by omega), fun h => absurd h (by omega),
        fun h => absurd h (by omega), fun _ => ⟨rfl, rfl, rfl, rfl⟩⟩
      · simp [set_state, set_error, emit, hlog, reads]
      · simpa [set_state, set_error, emit] using hbody2
  · intro hno
    rw [poll_reading_body hs, probe_body_eq hb]
    generalize byte_array_append_stream body w.jockey.content 2048 w = a at hj hno
    refine ⟨(receive_response_result
        (probe_body_lookahead a.count (store_body a.array a.world))).1,
      (receive_response_result
        (probe_body_lookahead a.count (store_body a.array a.world))).2, rfl, ?_⟩
    rw [(receive_response_result_frame _).2]
    have hno' : ¬ (a.count < 0 ∧ (store_body a.array a.world).errno = ENOSPC) := hno
    simp only [probe_body_lookahead, hno', if_false, probe_body_outcome_reads]
    rfl

/-! ### What the public operations leave alone -/

theorem EMSGSIZE_ne_EAGAIN : EMSGSIZE ≠ EAGAIN := by decide

theorem bytestream_1_read_op (s : bytestream_1) (n : Nat) (w : World) :
    (bytestream_1_read s n w).world.op = w.op := by
  unfold bytestream_1_read
  cases s with
  | drystream => rfl
  | stream i =>
    simp only
    split <;> rfl

theorem byte_array_append_stream_op (array : byte_array_t) (s : bytestream_1) (len : Nat)
    (w : World) : (byte_array_append_stream array s len w).world.op = w.op := by
  unfold byte_array_append_stream
  simp only
  split
  · rfl
  · simp only [read_frame, bytestream_1_read_op]
    rfl

theorem receive_response_result_op (w : World) :
    (receive_response_result w).2.op = w.op := by
  unfold receive_response_result
  split <;> rfl

/-- The outcome handling of `probe_body` writes the stored error only when it
fails, never writes `EAGAIN` there, and leaves content stream and operation alone. -/
theorem probe_body_outcome_frame2 (count : Int) (w : World) :
    ((probe_body_outcome count w).jockey.error = w.jockey.error ∨
        ((probe_body_outcome count w).jockey.state = HTTP_OP_JOCKEY_FAILED ∧
          (probe_body_outcome count w).jockey.error ≠ EAGAIN)) ∧
      (probe_body_outcome count w).jockey.content = w.jockey.content ∧
      (probe_body_outcome count w).op = w.op := by
  unfold probe_body_outcome
  split
  · split
    · rename_i he
      simp [set_state, set_error, emit, he]
    · simp
  · split
    · simp [set_state, emit]
    · simp [async_execute, emit]

/-- The same for `probe_body` from the lookahead on. -/
theorem probe_body_lookahead_frame2 (count : Int) (w : World) :
    ((probe_body_lookahead count w).jockey.error = w.jockey.error ∨
        ((probe_body_lookahead count w).jockey.state = HTTP_OP_JOCKEY_FAILED ∧
          (probe_body_lookahead count w).jockey.error ≠ EAGAIN)) ∧
      (probe_body_lookahead count w).jockey.content = w.jockey.content ∧
      (probe_body_lookahead count w).op = w.op := by
  have hj := bytestream_1_read_jockey w.jockey.content 1 w
  have ho := bytestream_1_read_op w.jockey.content 1 w
  unfold probe_body_lookahead
  split
  · simp only
    split
    · simp [set_state, set_error, emit, hj, ho, EMSGSIZE_ne_EAGAIN]
    · obtain ⟨h1, h2, h3⟩ := probe_body_outcome_frame2
        (bytestream_1_read w.jockey.content 1 w).count
        (bytestream_1_read w.jockey.content 1 w).world
      rw [hj] at h1 h2
      rw [ho] at h3
      exact ⟨h1, h2, h3⟩
  · exact probe_body_outcome_frame2 count w

/-- The stored error `probe_headers` writes is `EAGAIN` only when the stream
retrieval failed with `EAGAIN`. -/
theorem probe_headers_error_again (w : World)
    (hs : w.jockey.state = HTTP_OP_JOCKEY_READING_HEADERS)
    (he : (probe_headers w).jockey.error = EAGAIN) :
    w.jockey.error = EAGAIN ∨ w.op.content = .fail EAGAIN := by
  rcases w with ⟨⟨errno, ⟨responses, content, opcb, closed⟩, streams, nuid, log⟩,
    ⟨async, opn, uid, state, error, jcontent, ⟨envelope, body⟩, callback⟩⟩
  simp only at hs
  subst hs
  cases responses with
  | nil =>
    simp [probe_headers, http_op_receive_response, emit, set_state, set_error] at he
    exact absurd he.symm EAGAIN_ne_zero
  | cons o rest =>
    obtain ⟨ret, err⟩ := o
    cases ret with
    | none =>
      by_cases h0 : err = 0
      · simp [probe_headers, http_op_receive_response, emit, set_state, set_error, h0] at he
        exact absurd he.symm EAGAIN_ne_zero
      · by_cases h1 : err = EAGAIN
        · subst h1
          simp [probe_headers, http_op_receive_response, emit, set_state, set_error,
            EAGAIN_ne_zero] at he
          exact Or.inl he
        · simp [probe_headers, http_op_receive_response, emit, set_state, set_error, h0,
            h1] at he
    | some E =>
      cases content with
      | fail e =>
        simp [probe_headers, http_op_receive_response, emit, set_state, set_error,
          http_op_get_response_content] at he
        exact Or.inr (by rw [he])
      | ok S =>
        cases S <;>
          simp [probe_headers, http_op_receive_response, emit, set_state, set_error,
            http_op_get_response_content, bytestream_1_register_callback, async_execute,
            put_stream] at he <;>
          exact Or.inl he

/-- What one poll can change of stored error, content stream and the
operation's stream answer. -/
theorem poll_frame {w w' : World} {r : Option http_op_response}
    (hp : http_op_jockey_receive_response w = some (r, w')) :
    (w'.jockey.error = w.jockey.error ∨
        ((w.jockey.state = HTTP_OP_JOCKEY_READING_HEADERS ∨
            w.jockey.state = HTTP_OP_JOCKEY_READING_BODY) ∧
          w'.jockey.state = HTTP_OP_JOCKEY_FAILED)) ∧
      (w'.jockey.content = w.jockey.content ∨
        (w.jockey.state = HTTP_OP_JOCKEY_READING_HEADERS ∧
          w'.jockey.state = HTTP_OP_JOCKEY_READING_BODY)) ∧
      w'.op.content = w.op.content ∧
      (w'.jockey.error = EAGAIN → w.jockey.error = EAGAIN ∨ w.op.content = .fail EAGAIN) := by
  by_cases hterm : terminal w.jockey.state
  · obtain ⟨r2, w2, hp2, hj, -, ho, -⟩ := poll_terminal hterm
    rw [hp] at hp2
    simp only [Option.some.injEq, Prod.mk.injEq] at hp2
    obtain ⟨-, rfl⟩ := hp2
    rw [hj, ho]
    exact ⟨Or.inl rfl, Or.inl rfl, rfl, fun h => Or.inl h⟩
  · have hread : w.jockey.state = HTTP_OP_JOCKEY_READING_HEADERS ∨
        w.jockey.state = HTTP_OP_JOCKEY_READING_BODY := by
      unfold terminal at hterm
      cases hst : w.jockey.state <;> simp_all
    rcases hread with hs | hs
    · rw [poll_reading_headers hs] at hp
      simp only [Option.some.injEq] at hp
      have hw' : w' = (receive_response_result (probe_headers w)).2 := by rw [hp]
      subst hw'
      rw [(receive_response_result_frame _).1, receive_response_result_op]
      obtain ⟨h1, h2, h3⟩ := probe_headers_frame w hs
      refine ⟨?_, ?_, h3, probe_headers_error_again w hs⟩
      · rcases h1 with h | h
        · exact Or.inl h
        · exact Or.inr ⟨Or.inl hs, h⟩
      · rcases h2 with h | h
        · exact Or.inl h
        · exact Or.inr ⟨hs, h⟩
    · cases hb : w.jockey.response.body with
      | none => simp [poll_reading_body hs, probe_body, hb] at hp
      | some body =>
        rw [poll_reading_body hs, probe_body_eq hb] at hp
        have haj := byte_array_append_stream_jockey body w.jockey.content 2048 w
        have hao := byte_array_append_stream_op body w.jockey.content 2048 w
        generalize byte_array_append_stream body w.jockey.content 2048 w = a at hp haj hao
        simp only [Option.map_some', Option.some.injEq] at hp
        have hw' : w' = (receive_response_result
            (probe_body_lookahead a.count (store_body a.array a.world))).2 := by rw [hp]
        subst hw'
        rw [(receive_response_result_frame _).1, receive_response_result_op]
        obtain ⟨h1, h2, h3⟩ := probe_body_lookahead_frame2 a.count
          (store_body a.array a.world)
        have e1 : (store_body a.array a.world).jockey.error = w.jockey.error := by
          simp only [store_body, haj]
        have e2 : (store_body a.array a.world).jockey.content = w.jockey.content := by
          simp only [store_body, haj]
        have e3 : (store_body a.array a.world).op = w.op := by
          simp only [store_body, hao]
        rw [e1] at h1
        rw [e2] at h2
        rw [e3] at h3
        refine ⟨?_, Or.inl h2, by rw [h3], ?_⟩
        · rcases h1 with h | ⟨h, -⟩
          · exact Or.inl h
          · exact Or.inr ⟨Or.inr hs, h⟩
        · intro he
          rcases h1 with h | ⟨-, h⟩
          · exact Or.inl (by rw [← h]; exact he)
          · exact absurd he h

/-- The pair of states of a poll that has a result. -/
theorem poll_transition_of {w w' : World} {r : Option http_op_response}
    (hp : http_op_jockey_receive_response w = some (r, w')) :
    (w.jockey.state = HTTP_OP_JOCKEY_READING_HEADERS ∧
        (w'.jockey.state = HTTP_OP_JOCKEY_READING_HEADERS ∨
         w'.jockey.state = HTTP_OP_JOCKEY_READING_BODY ∨
         w'.jockey.state = HTTP_OP_JOCKEY_FAILED)) ∨
     (w.jockey.state = HTTP_OP_JOCKEY_READING_BODY ∧
        (w'.jockey.state = HTTP_OP_JOCKEY_READING_BODY ∨
         w'.jockey.state = HTTP_OP_JOCKEY_DONE ∨
         w'.jockey.state = HTTP_OP_JOCKEY_FAILED)) ∨
     (w.jockey.state = HTTP_OP_JOCKEY_DONE ∧ w'.jockey.state = HTTP_OP_JOCKEY_DONE) ∨
     (w.jockey.state = HTTP_OP_JOCKEY_FAILED ∧ w'.jockey.state = HTTP_OP_JOCKEY_FAILED) ∨
     (w.jockey.state = HTTP_OP_JOCKEY_ZOMBIE ∧ w'.jockey.state = HTTP_OP_JOCKEY_ZOMBIE) := by
  rcases poll_transition w with ⟨hn, -⟩ | ⟨r2, w2, hp2, ht⟩
  · rw [hp] at hn
    simp at hn
  · rw [hp] at hp2
    simp only [Option.some.injEq, Prod.mk.injEq] at hp2
    obtain ⟨-, rfl⟩ := hp2
    exact ht

/-- A call of the consumer is a poll, or it leaves stored error, content stream
and the operation's stream answer alone and keeps the state or makes it Zombie. -/
theorem api_step_cases {c : api_call} {w w' : World} (hstep : api_step c w = some w') :
    (c = .receive_response ∧ ∃ r, http_op_jockey_receive_response w = some (r, w')) ∨
    (w'.jockey.error = w.jockey.error ∧ w'.jockey.content = w.jockey.content ∧
      w'.op.content = w.op.content ∧
      (w'.jockey.state = w.jockey.state ∨ w'.jockey.state = HTTP_OP_JOCKEY_ZOMBIE)) := by
  cases c with
  | receive_response =>
    left
    simp only [api_step, Option.map_eq_some'] at hstep
    obtain ⟨⟨r, w1⟩, hp, hw⟩ := hstep
    simp only at hw
    subst hw
    exact ⟨rfl, r, hp⟩
  | close =>
    right
    simp only [api_step, Option.some.injEq] at hstep
    subst hstep
    rcases w with ⟨⟨errno, op, streams, nuid, log⟩,
      ⟨async, opn, uid, state, error, content, ⟨envelope, body⟩, callback⟩⟩
    cases body <;> cases content <;>
      simp [http_op_jockey_close, emit, bytestream_1_close, http_op_close, async_wound,
        put_stream]
  | register_callback action =>
    right
    simp only [api_step, Option.some.injEq] at hstep
    subst hstep
    rcases w with ⟨⟨errno, op, streams, nuid, log⟩,
      ⟨async, opn, uid, state, error, content, ⟨envelope, body⟩, callback⟩⟩
    cases content <;>
      simp [http_op_jockey_register_callback, http_op_register_callback,
        bytestream_1_register_callback, emit, put_stream]
  | unregister_callback =>
    right
    simp only [api_step, Option.some.injEq] at hstep
    subst hstep
    rcases w with ⟨⟨errno, op, streams, nuid, log⟩,
      ⟨async, opn, uid, state, error, content, ⟨envelope, body⟩, callback⟩⟩
    cases content <;>
      simp [http_op_jockey_unregister_callback, http_op_unregister_callback,
        bytestream_1_unregister_callback, emit, put_stream]
  | release_body =>
    right
    by_cases hd : w.jockey.state = HTTP_OP_JOCKEY_DONE
    · simp only [api_step, hd, if_true, Option.some.injEq] at hstep
      subst hstep
      simp [hd]
    · simp [api_step, hd] at hstep
  | release_body_as_json decode =>
    right
    by_cases hd : w.jockey.state = HTTP_OP_JOCKEY_DONE
    · simp only [api_step, hd, if_true, Option.some.injEq] at hstep
      subst hstep
      simp [hd]
    · simp [api_step, hd] at hstep

/-- Induction along a sequence of calls of the consumer. -/
theorem api_run_induction {P : World → Prop}
    (hstep : ∀ c w w', P w → api_step c w = some w' → P w')
    {cs : List api_call} {w w' : World} (h0 : P w) (hrun : api_run cs w = some w') :
    P w' := by
  induction cs generalizing w with
  | nil =>
    simp only [api_run, Option.some.injEq] at hrun
    subst hrun
    exact h0
  | cons c cs ih =>
    simp only [api_run] at hrun
    cases hs : api_step c w with
    | none => simp [hs] at hrun
    | some w1 =>
      rw [hs, Option.some_bind] at hrun
      exact ih (hstep c w w1 h0 hs) hrun

/-- C16: the stored error is written only on entry to Failed.  If a call of
the consumer (poll, close, register, unregister, or an extraction) changes
the stored error, the call was a poll from ReadingHeaders or ReadingBody that
ended in Failed.  So on every jockey reachable from `make_http_op_jockey` the
stored error is 0 in ReadingHeaders, ReadingBody and Done. -/
theorem C16_error_written_only_on_entry_to_failed :
    (∀ (c : api_call) (w w' : World), api_step c w = some w' →
      w'.jockey.error ≠ w.jockey.error →
      (c = .receive_response ∧ ∃ r, http_op_jockey_receive_response w = some (r, w')) ∧
      (w.jockey.state = HTTP_OP_JOCKEY_READING_HEADERS ∨
        w.jockey.state = HTTP_OP_JOCKEY_READING_BODY) ∧
      w'.jockey.state = HTTP_OP_JOCKEY_FAILED) ∧
    (∀ async op max_body_size s,
      (make_http_op_jockey async op max_body_size s).jockey.error = 0) ∧
    (∀ w, reachable w →
      w.jockey.state = HTTP_OP_JOCKEY_READING_HEADERS ∨
        w.jockey.state = HTTP_OP_JOCKEY_READING_BODY ∨
        w.jockey.state = HTTP_OP_JOCKEY_DONE →
      w.jockey.error = 0) := by
  have part1 : ∀ (c : api_call) (w w' : World), api_step c w = some w' →
      w'.jockey.error ≠ w.jockey.error →
      (c = .receive_response ∧ ∃ r, http_op_jockey_receive_response w = some (r, w')) ∧
      (w.jockey.state = HTTP_OP_JOCKEY_READING_HEADERS ∨
        w.jockey.state = HTTP_OP_JOCKEY_READING_BODY) ∧
      w'.jockey.state = HTTP_OP_JOCKEY_FAILED := by
    intro c w w' hstep hne
    rcases api_step_cases hstep with ⟨hc, r, hp⟩ | ⟨he, -⟩
    · rcases (poll_frame hp).1 with h | ⟨h1, h2⟩
      · exact absurd h hne
      · exact ⟨⟨hc, r, hp⟩, h1, h2⟩
    · exact absurd he hne
  refine ⟨part1, fun _ _ _ _ => rfl, ?_⟩
  rintro w ⟨async, op, m, s, cs, hrun⟩
  refine api_run_induction (P := fun v =>
      v.jockey.state = HTTP_OP_JOCKEY_READING_HEADERS ∨
        v.jockey.state = HTTP_OP_JOCKEY_READING_BODY ∨
        v.jockey.state = HTTP_OP_JOCKEY_DONE → v.jockey.error = 0) ?_ (fun _ => rfl) hrun
  intro c v v' hv hstep hst
  by_cases hne : v'.jockey.error = v.jockey.error
  · rw [hne]
    apply hv
    rcases api_step_cases hstep with ⟨-, r, hp⟩ | ⟨-, -, -, h | h⟩
    · rcases poll_transition_of hp with ⟨h1, -⟩ | ⟨h1, -⟩ | ⟨h1, -⟩ | ⟨-, h2⟩ | ⟨-, h2⟩
      · exact Or.inl h1
      · exact Or.inr (Or.inl h1)
      · exact Or.inr (Or.inr h1)
      · rw [h2] at hst; simp at hst
      · rw [h2] at hst; simp at hst
    · rw [← h]; exact hst
    · rw [h] at hst; simp at hst
  · obtain ⟨-, -, hf⟩ := part1 c v v' hstep hne
    rw [hf] at hst
    simp at hst

/-- A header poll in which the operation returns an envelope and the stream
retrieval fails with `errno` = `e`: Failed with error `e`, content stream untouched. -/
theorem poll_content_retrieval_fails {w : World} {E : http_env_t} {e : Int}
    (hs : w.jockey.state = HTTP_OP_JOCKEY_READING_HEADERS)
    (hret : (http_op_receive_response { w with errno := 0 }).1 = some E)
    (hcontent : w.op.content = .fail e) :
    ∃ w', http_op_jockey_receive_response w = some (none, w') ∧
      w'.jockey.state = HTTP_OP_JOCKEY_FAILED ∧ w'.jockey.error = e ∧ w'.errno = e ∧
      w'.jockey.content = w.jockey.content := by
  rw [poll_reading_headers hs]
  rcases w with ⟨⟨errno, ⟨responses, content, opcb, closed⟩, streams, nuid, log⟩,
    ⟨async, opn, uid, state, error, jcontent, ⟨envelope, body⟩, callback⟩⟩
  simp only at hs hcontent
  subst hs hcontent
  cases responses with
  | nil => simp [http_op_receive_response] at hret
  | cons o rest =>
    simp only [http_op_receive_response] at hret
    simp [probe_headers, http_op_receive_response, hret, emit, http_op_get_response_content,
      set_state, set_error, receive_response_result]

/-- C17: the content stream is installed at most once.  `make_http_op_jockey`
installs the placeholder `drystream`.  A call of the consumer changes the
content-stream field only if it is a poll that takes ReadingHeaders to
ReadingBody; once the state is not ReadingHeaders, no sequence of calls
changes the field again.  On a reachable jockey the field is the placeholder
throughout ReadingHeaders, and a header poll that ends in Failed because the
stream retrieval failed leaves it the placeholder. -/
theorem C17_content_stream_installed_once :
    (∀ async op max_body_size s,
      (make_http_op_jockey async op max_body_size s).jockey.content = drystream) ∧
    (∀ (c : api_call) (w w' : World), api_step c w = some w' →
      w'.jockey.content ≠ w.jockey.content →
      (c = .receive_response ∧ ∃ r, http_op_jockey_receive_response w = some (r, w')) ∧
      w.jockey.state = HTTP_OP_JOCKEY_READING_HEADERS ∧
      w'.jockey.state = HTTP_OP_JOCKEY_READING_BODY) ∧
    (∀ (cs : List api_call) (w w' : World),
      w.jockey.state ≠ HTTP_OP_JOCKEY_READING_HEADERS → api_run cs w = some w' →
      w'.jockey.content = w.jockey.content) ∧
    (∀ w, reachable w → w.jockey.state = HTTP_OP_JOCKEY_READING_HEADERS →
      w.jockey.content = drystream) ∧
    (∀ (w : World) (E : http_env_t) (e : Int), reachable w →
      w.jockey.state = HTTP_OP_JOCKEY_READING_HEADERS →
      (http_op_receive_response { w with errno := 0 }).1 = some E →
      w.op.content = .fail e →
      ∃ w', http_op_jockey_receive_response w = some (none, w') ∧
        w'.jockey.state = HTTP_OP_JOCKEY_FAILED ∧ w'.jockey.content = drystream) := by
  have part2 : ∀ (c : api_call) (w w' : World), api_step c w = some w' →
      w'.jockey.content ≠ w.jockey.content →
      (c = .receive_response ∧ ∃ r, http_op_jockey_receive_response w = some (r, w')) ∧
      w.jockey.state = HTTP_OP_JOCKEY_READING_HEADERS ∧
      w'.jockey.state = HTTP_OP_JOCKEY_READING_BODY := by
    intro c w w' hstep hne
    rcases api_step_cases hstep with ⟨hc, r, hp⟩ | ⟨-, he, -⟩
    · rcases (poll_frame hp).2.1 with h | ⟨h1, h2⟩
      · exact absurd h hne
      · exact ⟨⟨hc, r, hp⟩, h1, h2⟩
    · exact absurd he hne
  have stays : ∀ (c : api_call) (w w' : World), api_step c w = some w' →
      w'.jockey.state = HTTP_OP_JOCKEY_READING_HEADERS →
      w.jockey.state = HTTP_OP_JOCKEY_READING_HEADERS := by
    intro c w w' hstep hst
    rcases api_step_cases hstep with ⟨-, r, hp⟩ | ⟨-, -, -, h | h⟩
    · rcases poll_transition_of hp with ⟨h1, -⟩ | ⟨-, h2⟩ | ⟨-, h2⟩ | ⟨-, h2⟩ | ⟨-, h2⟩
      · exact h1
      · rw [hst] at h2; simp at h2
      · rw [hst] at h2; simp at h2
      · rw [hst] at h2; simp at h2
      · rw [hst] at h2; simp at h2
    · rw [← h]; exact hst
    · rw [hst] at h; simp at h
  have part4 : ∀ w, reachable w → w.jockey.state = HTTP_OP_JOCKEY_READING_HEADERS →
      w.jockey.content = drystream := by
    rintro w ⟨async, op, m, s, cs, hrun⟩
    refine api_run_induction (P := fun v =>
      v.jockey.state = HTTP_OP_JOCKEY_READING_HEADERS → v.jockey.content = drystream)
      ?_ (fun _ => rfl) hrun
    intro c v v' hv hstep hst
    have hvs := stays c v v' hstep hst
    by_cases hne : v'.jockey.content = v.jockey.content
    · rw [hne]; exact hv hvs
    · obtain ⟨-, -, h⟩ := part2 c v v' hstep hne
      rw [hst] at h
      simp at h
  refine ⟨fun _ _ _ _ => rfl, part2, ?_, part4, ?_⟩
  · intro cs w w' hns hrun
    have key := api_run_induction (P := fun v =>
      v.jockey.state ≠ HTTP_OP_JOCKEY_READING_HEADERS ∧ v.jockey.content = w.jockey.content)
      (by
        intro c v v' hv hstep
        refine ⟨fun hst => hv.1 (stays c v v' hstep hst), ?_⟩
        by_cases hne : v'.jockey.content = v.jockey.content
        · rw [hne]; exact hv.2
        · exact absurd (part2 c v v' hstep hne).2.1 hv.1)
      ⟨hns, rfl⟩ hrun
    exact key.2
  · intro w E e hreach hs hret hcontent
    obtain ⟨w', hp, hf, -, -, hc⟩ := poll_content_retrieval_fails hs hret hcontent
    exact ⟨w', hp, hf, by rw [hc]; exact part4 w hreach hs⟩

/-- C12, as stated, fails: on a fresh jockey whose operation returns envelope 7
and whose stream retrieval then fails with `errno` = `EAGAIN`, the poll
leaves the jockey Failed with stored error `EAGAIN`. -/
theorem C12_counterexample_retrieval_try_again_fails :
    (sample_headers_world [⟨some 7, 0⟩] (.fail EAGAIN)).jockey.state =
        HTTP_OP_JOCKEY_READING_HEADERS ∧
      (http_op_receive_response
        { sample_headers_world [⟨some 7, 0⟩] (.fail EAGAIN) with errno := 0 }).1 = some 7 ∧
      (http_op_get_response_content (sample_headers_world [⟨some 7, 0⟩] (.fail EAGAIN))).1 < 0 ∧
      (http_op_get_response_content
        (sample_headers_world [⟨some 7, 0⟩] (.fail EAGAIN))).2.errno = EAGAIN ∧
      ∃ w', http_op_jockey_receive_response
          (sample_headers_world [⟨some 7, 0⟩] (.fail EAGAIN)) = some (none, w') ∧
        w'.jockey.state = HTTP_OP_JOCKEY_FAILED ∧ w'.jockey.error = EAGAIN ∧
        w'.errno = EAGAIN :=
  ⟨rfl, rfl, by decide, rfl, _, rfl, rfl, rfl, rfl⟩

/-- C12, amended: a try-again of the header poll, of the append or of the
lookahead is never surfaced as a failure: the poll returns no response with
`errno` = `EAGAIN` and the state stays what it was, ReadingHeaders or
ReadingBody.  A failure of `http_op_get_response_content` is terminal
whatever its `errno`, `EAGAIN` included: the poll leaves the jockey Failed
with that `errno` stored.  This is the only way `EAGAIN` gets stored: on a
jockey made on an operation whose stream retrieval does not fail with
`EAGAIN`, no sequence of calls of the consumer makes the stored error `EAGAIN`. -/
theorem C12_try_again_surfaces_only_from_stream_retrieval :
    (∀ w : World,
      ((w.jockey.state = HTTP_OP_JOCKEY_READING_HEADERS ∧
          (http_op_receive_response { w with errno := 0 }).1 = none ∧
          (http_op_receive_response { w with errno := 0 }).2.errno = EAGAIN) ∨
         (w.jockey.state = HTTP_OP_JOCKEY_READING_BODY ∧
          ∃ body, w.jockey.response.body = some body ∧
            (byte_array_append_stream body w.jockey.content 2048 w).count < 0 ∧
            ((byte_array_append_stream body w.jockey.content 2048 w).world.errno = EAGAIN ∨
             ((byte_array_append_stream body w.jockey.content 2048 w).world.errno = ENOSPC ∧
              (bytestream_1_read w.jockey.content 1
                (byte_array_append_stream body w.jockey.content 2048 w).world).count < 0 ∧
              (bytestream_1_read w.jockey.content 1
                (byte_array_append_stream body w.jockey.content 2048 w).world).world.errno
                = EAGAIN)))) →
      ∃ w', http_op_jockey_receive_response w = some (none, w') ∧ w'.errno = EAGAIN ∧
        w'.jockey.state = w.jockey.state ∧ w'.jockey.state ≠ HTTP_OP_JOCKEY_FAILED ∧
        w'.jockey.error = w.jockey.error) ∧
    (∀ (w : World) (E : http_env_t) (e : Int),
      w.jockey.state = HTTP_OP_JOCKEY_READING_HEADERS →
      (http_op_receive_response { w with errno := 0 }).1 = some E →
      w.op.content = .fail e →
      ∃ w', http_op_jockey_receive_response w = some (none, w') ∧
        w'.jockey.state = HTTP_OP_JOCKEY_FAILED ∧ w'.jockey.error = e ∧ w'.errno = e) ∧
    (∀ (async op max_body_size : Nat) (s : Sys) (cs : List api_call) (w : World),
      s.op.content ≠ .fail EAGAIN →
      api_run cs (make_http_op_jockey async op max_body_size s) = some w →
      w.jockey.error ≠ EAGAIN) := by
  refine ⟨?_, ?_, ?_⟩
  · intro w h
    have hst : w.jockey.state ≠ HTTP_OP_JOCKEY_FAILED := by
      rcases h with ⟨hs, -⟩ | ⟨hs, -⟩ <;> rw [hs] <;> decide
    obtain ⟨w', hp, he, hj, -⟩ := poll_try_again w h
    exact ⟨w', hp, he, by rw [hj], by rw [hj]; exact hst, by rw [hj]⟩
  · intro w E e hs hret hcontent
    obtain ⟨w', hp, hf, he, herr, -⟩ := poll_content_retrieval_fails hs hret hcontent
    exact ⟨w', hp, hf, he, herr⟩
  · intro async op m s cs w hok hrun
    have key := api_run_induction (P := fun v =>
        v.jockey.error ≠ EAGAIN ∧ v.op.content = s.op.content)
      (by
        intro c v v' hv hstep
        rcases api_step_cases hstep with ⟨-, r, hp⟩ | ⟨he, -, ho, -⟩
        · obtain ⟨-, -, ho, hag⟩ := poll_frame hp
          refine ⟨fun h => ?_, by rw [ho]; exact hv.2⟩
          rcases hag h with h1 | h1
          · exact hv.1 h1
          · rw [hv.2] at h1
            exact hok h1
        · exact ⟨by rw [he]; exact hv.1, by rw [ho]; exact hv.2⟩)
      ⟨fun h => EAGAIN_ne_zero h.symm, rfl⟩ hrun
    exact key.1

/-- C18 fails on the code: on a fresh jockey (envelope field NULL) whose first
poll receives envelope 7, the trace point at lines 193-196 takes the status
code from `jockey->response.envelope`, still NULL, and only the explanation
from the envelope just returned; the field is assigned afterwards. -/
theorem C18_envelope_field_read_before_installed :
    (sample_headers_world [⟨some 7, 0⟩] (.ok (.stream 3))).jockey.response.envelope = none ∧
      ∃ w', http_op_jockey_receive_response
          (sample_headers_world [⟨some 7, 0⟩] (.ok (.stream 3))) = some (none, w') ∧
        w'.jockey.response.envelope = some 7 ∧
        w'.log = (sample_headers_world [⟨some 7, 0⟩] (.ok (.stream 3))).log ++
          [.http_op_receive_response 2 (some 7),
           .FSTRACE_GOT_RESPONSE 100 none (some 7),
           .http_op_get_response_content 2 0,
           .FSTRACE_SET_STATE 100 HTTP_OP_JOCKEY_READING_HEADERS HTTP_OP_JOCKEY_READING_BODY,
           .bytestream_1_register_callback (.stream 3) NULL_ACTION_1,
           .async_execute 1 NULL_ACTION_1] :=
  ⟨rfl, _, rfl, rfl, rfl⟩

/-! ### Ownership of the accumulator -/

@[simp] theorem destroys_append (l₁ l₂ : List Event) :
    destroys (l₁ ++ l₂) = destroys l₁ ++ destroys l₂ := by
  simp [destroys]

/-- Extraction calls that all return NULL hand over nothing. -/
theorem transfers_of_null (outs : List released) (h : ∀ out ∈ outs, out.is_null = true) :
    transfers outs = [] := by
  induction outs with
  | nil => rfl
  | cons o outs ih =>
    have ho := h o (List.mem_cons_self _ _)
    have ih' := ih (fun x hx => h x (List.mem_cons_of_mem _ hx))
    cases o with
    | body b =>
      cases b with
      | none => simpa [transfers] using ih'
      | some b => simp [released.is_null] at ho
    | json j => simpa [transfers] using ih'

/-- A sequence of extraction calls on a response that holds the accumulator
`b`: it is still held, or it was handed over once, or it was destroyed once. -/
theorem releases_cases (decode : List byte → Option json_thing_t) (cs : List release_call)
    (response : http_op_response) (b : byte_array_t) (h : response.body = some b) :
    ((releases decode cs response).2.1.body = some b ∧
        transfers (releases decode cs response).1 = [] ∧
        destroys (releases decode cs response).2.2 = []) ∨
      ((releases decode cs response).2.1.body = none ∧
        transfers (releases decode cs response).1 = [b] ∧
        destroys (releases decode cs response).2.2 = []) ∨
      ((releases decode cs response).2.1.body = none ∧
        transfers (releases decode cs response).1 = [] ∧
        destroys (releases decode cs response).2.2 = [.destroy_byte_array b]) := by
  cases cs with
  | nil => exact Or.inl ⟨h, rfl, rfl⟩
  | cons c cs =>
    obtain ⟨envelope, body⟩ := response
    simp only at h
    subst h
    cases c with
    | release_body =>
      obtain ⟨h1, -, h3, h4⟩ := releases_of_empty decode cs
        { envelope := envelope, body := none } rfl
      refine Or.inr (Or.inl ?_)
      simp only [releases, release, http_op_response_release_body]
      exact ⟨by rw [h3], by simp [transfers, transfers_of_null _ h1], by rw [h4]; rfl⟩
    | release_body_as_json =>
      obtain ⟨h1, -, h3, h4⟩ := releases_of_empty decode cs
        { envelope := envelope, body := none } rfl
      refine Or.inr (Or.inr ?_)
      simp only [releases, release, http_op_response_release_body_as_json]
      exact ⟨by rw [h3], by simp [transfers, transfers_of_null _ h1],
        by rw [h4]; simp [destroys]⟩

/-- The destroy calls of `http_op_jockey_close`: one if the body slot is
occupied, none if it is empty. -/
theorem close_destroys (w : World) :
    destroys (http_op_jockey_close w).log = destroys w.log ++
      (match w.jockey.response.body with
        | some body => [.destroy_byte_array body]
        | none => []) := by
  rcases w with ⟨⟨errno, op, streams, nuid, log⟩,
    ⟨async, opn, uid, state, error, content, ⟨envelope, body⟩, callback⟩⟩
  cases body <;> cases content <;>
    simp [http_op_jockey_close, emit, bytestream_1_close, http_op_close, async_wound,
      put_stream, destroys]

/-- C19: the accumulator is destroyed or handed over exactly once.  Take any
jockey, any sequence of `http_op_response_release_body` and
`http_op_response_release_body_as_json` calls on its response, then one
`http_op_jockey_close`.  Close destroys the accumulator once if the body slot
is still occupied and makes no destroy call if it is empty.  If the jockey
held the accumulator `b`, then over the whole sequence either `b` was handed
to the caller once and never destroyed, or it was destroyed once and never
handed over; if the jockey held none, nothing is handed over or destroyed. -/
theorem C19_accumulator_released_exactly_once (decode : List byte → Option json_thing_t)
    (w : World) (cs : List release_call) :
    (∀ b, (releases decode cs w.jockey.response).2.1.body = some b →
      destroys (http_op_jockey_close (with_response
          (releases decode cs w.jockey.response).2.1
          (releases decode cs w.jockey.response).2.2 w)).log =
        destroys (with_response (releases decode cs w.jockey.response).2.1
          (releases decode cs w.jockey.response).2.2 w).log ++ [.destroy_byte_array b]) ∧
    ((releases decode cs w.jockey.response).2.1.body = none →
      destroys (http_op_jockey_close (with_response
          (releases decode cs w.jockey.response).2.1
          (releases decode cs w.jockey.response).2.2 w)).log =
        destroys (with_response (releases decode cs w.jockey.response).2.1
          (releases decode cs w.jockey.response).2.2 w).log) ∧
    (∀ b, w.jockey.response.body = some b →
      (transfers (releases decode cs w.jockey.response).1 = [b] ∧
        destroys (http_op_jockey_close (with_response
          (releases decode cs w.jockey.response).2.1
          (releases decode cs w.jockey.response).2.2 w)).log = destroys w.log) ∨
      (transfers (releases decode cs w.jockey.response).1 = [] ∧
        destroys (http_op_jockey_close (with_response
          (releases decode cs w.jockey.response).2.1
          (releases decode cs w.jockey.response).2.2 w)).log =
          destroys w.log ++ [.destroy_byte_array b])) ∧
    (w.jockey.response.body = none →
      transfers (releases decode cs w.jockey.response).1 = [] ∧
      destroys (http_op_jockey_close (with_response
          (releases decode cs w.jockey.response).2.1
          (releases decode cs w.jockey.response).2.2 w)).log = destroys w.log) := by
  have hclose := close_destroys (with_response (releases decode cs w.jockey.response).2.1
    (releases decode cs w.jockey.response).2.2 w)
  have hlog : destroys (with_response (releases decode cs w.jockey.response).2.1
      (releases decode cs w.jockey.response).2.2 w).log =
      destroys w.log ++ destroys (releases decode cs w.jockey.response).2.2 := by
    simp [with_response]
  have hbody : (with_response (releases decode cs w.jockey.response).2.1
      (releases decode cs w.jockey.response).2.2 w).jockey.response.body =
      (releases decode cs w.jockey.response).2.1.body := rfl
  rw [hbody] at hclose
  refine ⟨?_, ?_, ?_, ?_⟩
  · intro b hb
    rw [hclose, hb]
  · intro hb
    rw [hclose, hb]
    simp
  · intro b hb
    rcases releases_cases decode cs w.jockey.response b hb with
      ⟨h1, h2, h3⟩ | ⟨h1, h2, h3⟩ | ⟨h1, h2, h3⟩
    · right
      rw [hclose, hlog, h1, h3]
      exact ⟨h2, by simp⟩
    · left
      rw [hclose, hlog, h1, h3]
      exact ⟨h2, by simp⟩
    · right
      rw [hclose, hlog, h1, h3]
      exact ⟨h2, by simp⟩
  · intro hb
    obtain ⟨h1, -, h3, h4⟩ := releases_of_empty decode cs w.jockey.response hb
    rw [hclose, hlog, h3, h4, hb]
    exact ⟨transfers_of_null _ h1, by simp [destroys]⟩

/-! ### The later theorems at concrete inputs -/

/-- C14 at concrete inputs, with a full accumulator (capacity 0): a stream at
its end gives Done, a stream with one more byte gives Failed with `EMSGSIZE`. -/
theorem C14_witness_lookahead :
    (∃ res w', http_op_jockey_receive_response (sample_body_world 0 []) = some (res, w') ∧
      w'.jockey.state = HTTP_OP_JOCKEY_DONE ∧ res = some w'.jockey.response ∧
      w'.jockey.response.body = some (make_byte_array 0)) ∧
    (∃ res w', http_op_jockey_receive_response (sample_body_world 0 [.bytes [1]]) =
        some (res, w') ∧
      w'.jockey.state = HTTP_OP_JOCKEY_FAILED ∧ res = none ∧ w'.jockey.error = EMSGSIZE ∧
      reads w'.log = [.bytestream_1_read (.stream 3) 1 1]) := by
  obtain ⟨res, w', hp, -, hb, h0, -, -, -⟩ :=
    (C14_lookahead_replaces_append_outcome (sample_body_world 0 []) (make_byte_array 0)
      rfl rfl).1 ⟨by decide, rfl⟩
  obtain ⟨res2, w2, hp2, hr, -, -, -, -, hpos⟩ :=
    (C14_lookahead_replaces_append_outcome (sample_body_world 0 [.bytes [1]])
      (make_byte_array 0) rfl rfl).1 ⟨by decide, rfl⟩
  obtain ⟨hd, hres⟩ := h0 rfl
  obtain ⟨hf, hres2, he, -⟩ := hpos (by decide)
  exact ⟨⟨res, w', hp, hd, hres, hb⟩, ⟨res2, w2, hp2, hf, hres2, he, hr⟩⟩

/-- C15 at concrete inputs: a stream with two bytes ready (one callback
scheduled) and a stream at its end (none scheduled). -/
theorem C15_witness_rescheduling :
    (∃ w', http_op_jockey_receive_response (sample_body_world 3 [.bytes [1, 2]]) =
        some (none, w') ∧
      w'.jockey.state = HTTP_OP_JOCKEY_READING_BODY ∧ w'.errno = EAGAIN ∧
      scheduled w'.log = [.async_execute 1 5]) ∧
    (∃ r w', http_op_jockey_receive_response (sample_body_world 3 []) = some (r, w') ∧
      scheduled w'.log = []) := by
  obtain ⟨w', hp, hs, he, -, hsch⟩ :=
    (C15_body_phase_rescheduling (sample_body_world 3 [.bytes [1, 2]]) (make_byte_array 3)
      rfl rfl).1 (by decide)
  obtain ⟨r, w2, hp2, hsch2⟩ :=
    (C15_body_phase_rescheduling (sample_body_world 3 []) (make_byte_array 3)
      rfl rfl).2 (by decide)
  exact ⟨⟨w', hp, hs, he, hsch⟩, ⟨r, w2, hp2, hsch2⟩⟩

/-- C20 at a concrete input: a jockey closed in the body phase. -/
theorem C20_witness_closed_sample :
    (http_op_jockey_close (sample_body_world 3 [.bytes [1]])).jockey.state =
        HTTP_OP_JOCKEY_ZOMBIE ∧
      http_op_jockey_receive_response (http_op_jockey_close (sample_body_world 3 [.bytes [1]])) =
        some (none, { http_op_jockey_close (sample_body_world 3 [.bytes [1]]) with
          errno := EINVAL }) :=
  ⟨rfl, (C20_poll_closed_jockey_EINVAL
    (http_op_jockey_close (sample_body_world 3 [.bytes [1]]))).1 rfl⟩

/-- C16 at concrete inputs: the poll that meets error 5 in the header phase is
a call that changes the stored error, and it ends in Failed; a fresh jockey is
reachable, in ReadingHeaders, with stored error 0. -/
theorem C16_witness_error_written :
    (∃ w', api_step .receive_response (sample_headers_world [⟨none, 5⟩] (.ok (.stream 3))) =
        some w' ∧
      w'.jockey.error ≠ (sample_headers_world [⟨none, 5⟩] (.ok (.stream 3))).jockey.error ∧
      w'.jockey.state = HTTP_OP_JOCKEY_FAILED) ∧
    reachable (sample_headers_world [] (.ok (.stream 3))) ∧
    (sample_headers_world [] (.ok (.stream 3))).jockey.error = 0 := by
  have hstep : ∃ w', api_step .receive_response
      (sample_headers_world [⟨none, 5⟩] (.ok (.stream 3))) = some w' ∧
      w'.jockey.error ≠ (sample_headers_world [⟨none, 5⟩] (.ok (.stream 3))).jockey.error :=
    ⟨_, rfl, by decide⟩
  obtain ⟨w', h1, h2⟩ := hstep
  have hreach : reachable (sample_headers_world [] (.ok (.stream 3))) :=
    ⟨1, 2, 10, _, [], rfl⟩
  exact ⟨⟨w', h1, h2, (C16_error_written_only_on_entry_to_failed.1 _ _ _ h1 h2).2.2⟩, hreach,
    C16_error_written_only_on_entry_to_failed.2.2 _ hreach (Or.inl rfl)⟩

/-- C17 at concrete inputs: the poll in which the headers arrive replaces the
placeholder by stream 3 and ends in ReadingBody; a poll in which the stream
retrieval fails with error 5 leaves the placeholder. -/
theorem C17_witness_content_installed :
    (∃ w', api_step .receive_response (sample_headers_world [⟨some 7, 0⟩] (.ok (.stream 3))) =
        some w' ∧
      (sample_headers_world [⟨some 7, 0⟩] (.ok (.stream 3))).jockey.content = drystream ∧
      w'.jockey.content = .stream 3 ∧
      w'.jockey.state = HTTP_OP_JOCKEY_READING_BODY) ∧
    (∃ w', http_op_jockey_receive_response
        (sample_headers_world [⟨some 7, 0⟩] (.fail 5)) = some (none, w') ∧
      w'.jockey.state = HTTP_OP_JOCKEY_FAILED ∧ w'.jockey.content = drystream) := by
  have hstep : ∃ w', api_step .receive_response
      (sample_headers_world [⟨some 7, 0⟩] (.ok (.stream 3))) = some w' ∧
      w'.jockey.content = .stream 3 :=
    ⟨_, rfl, rfl⟩
  obtain ⟨w', h1, h2⟩ := hstep
  have hne : w'.jockey.content ≠
      (sample_headers_world [⟨some 7, 0⟩] (.ok (.stream 3))).jockey.content := by
    rw [h2]
    decide
  exact ⟨⟨w', h1, rfl, h2, (C17_content_stream_installed_once.2.1 _ _ _ h1 hne).2.2⟩,
    C17_content_stream_installed_once.2.2.2.2 _ 7 5 ⟨1, 2, 10, _, [], rfl⟩ rfl rfl rfl⟩

/-- C12 (amended) at concrete inputs: a try-again of the header poll leaves
ReadingHeaders; a stream retrieval that fails with error 5 gives Failed with
error 5; and after any three polls on the sample system the stored error is
not `EAGAIN`. -/
theorem C12_witness_try_again_and_retrieval :
    (∃ w', http_op_jockey_receive_response
        (sample_headers_world [⟨none, EAGAIN⟩] (.ok (.stream 3))) = some (none, w') ∧
      w'.errno = EAGAIN ∧ w'.jockey.state = HTTP_OP_JOCKEY_READING_HEADERS) ∧
    (∃ w', http_op_jockey_receive_response
        (sample_headers_world [⟨some 7, 0⟩] (.fail 5)) = some (none, w') ∧
      w'.jockey.state = HTTP_OP_JOCKEY_FAILED ∧ w'.jockey.error = 5) ∧
    (∃ w, api_run [.receive_response, .receive_response, .receive_response]
        (make_http_op_jockey 1 2 10 (sample_sys [.bytes [1]])) = some w ∧
      w.jockey.error ≠ EAGAIN) := by
  obtain ⟨w1, h1, h2, h3, -, -⟩ := C12_try_again_surfaces_only_from_stream_retrieval.1
    (sample_headers_world [⟨none, EAGAIN⟩] (.ok (.stream 3))) (Or.inl ⟨rfl, rfl, rfl⟩)
  obtain ⟨w2, g1, g2, g3, -⟩ := C12_try_again_surfaces_only_from_stream_retrieval.2.1
    (sample_headers_world [⟨some 7, 0⟩] (.fail 5)) 7 5 rfl rfl rfl
  have hrun : ∃ w, api_run [.receive_response, .receive_response, .receive_response]
      (make_http_op_jockey 1 2 10 (sample_sys [.bytes [1]])) = some w := ⟨_, rfl⟩
  obtain ⟨w3, k1⟩ := hrun
  exact ⟨⟨w1, h1, h2, by rw [h3]; rfl⟩, ⟨w2, g1, g2, g3⟩,
    ⟨w3, k1, C12_try_again_surfaces_only_from_stream_retrieval.2.2 1 2 10 _ _ w3
      (by decide) k1⟩⟩

/-- C19 at concrete inputs, on a jockey that holds an accumulator and with a
decoder that always succeeds: decoding, then extracting, then closing destroys
it once and hands nothing over; extracting, then decoding, then closing hands
it over once and destroys nothing. -/
theorem C19_witness_release_then_close :
    (transfers (releases (fun _ => some 0) [.release_body_as_json, .release_body]
        (sample_body_world 3 []).jockey.response).1 = [] ∧
      destroys (http_op_jockey_close (with_response
        (releases (fun _ => some 0) [.release_body_as_json, .release_body]
          (sample_body_world 3 []).jockey.response).2.1
        (releases (fun _ => some 0) [.release_body_as_json, .release_body]
          (sample_body_world 3 []).jockey.response).2.2 (sample_body_world 3 []))).log =
        [.destroy_byte_array (make_byte_array 3)]) ∧
    (transfers (releases (fun _ => some 0) [.release_body, .release_body_as_json]
        (sample_body_world 3 []).jockey.response).1 = [make_byte_array 3] ∧
      destroys (http_op_jockey_close (with_response
        (releases (fun _ => some 0) [.release_body, .release_body_as_json]
          (sample_body_world 3 []).jockey.response).2.1
        (releases (fun _ => some 0) [.release_body, .release_body_as_json]
          (sample_body_world 3 []).jockey.response).2.2 (sample_body_world 3 []))).log =
        []) := by
  have h1 := (C19_accumulator_released_exactly_once (fun _ => some 0)
    (sample_body_world 3 []) [.release_body_as_json, .release_body]).2.2.1
    (make_byte_array 3) rfl
  have h2 := (C19_accumulator_released_exactly_once (fun _ => some 0)
    (sample_body_world 3 []) [.release_body, .release_body_as_json]).2.2.1
    (make_byte_array 3) rfl
  constructor
  · rcases h1 with ⟨ht, -⟩ | ⟨ht, hd⟩
    · exact absurd ht (by decide)
    · exact ⟨ht, hd⟩
  · rcases h2 with ⟨ht, hd⟩ | ⟨ht, -⟩
    · exact ⟨ht, hd⟩
    · exact absurd ht (by decide)

end HttpOpJockey
